import Mathlib

/-!
Verification of the dial/tunnel establishment pipeline of the
psiphon tunneling client: the obfuscator handshake (seed message,
iterated-SHA-1 key derivation, RC4 stream framing), the server-entry
store and iterator (store policy, affinity, replay partition), the
custom TLS dialer, and the randomized ClientHello assembler.

The Go sources are shallowly embedded: bytes are `Nat` values < 256,
byte strings are `List Nat`, machine integers are `Int`/`Nat` with
explicit reduction mod 2^32 where overflow matters, fallible code
returns `Except`/`Option`, and effectful inputs (system entropy,
the unseeded package-level PRNG, network reads) are explicit
parameters.  Go standard-library primitives used by the sources
(SHA-1, RC4, hex decoding, big-endian integer encoding) are
implemented faithfully; support packages of the repository that are
not part of the given sources (the seeded `prng` package, the
`protocol` profile tables) are modelled from the specification and
marked as such.
-/

/-! # Byte-level primitives -/

/-- Truncation to a 32-bit word, the overflow behaviour of Go `uint32`. -/
def w32 (n : Nat) : Nat := n % 4294967296

/-- Left rotation of a 32-bit word by `s` bits. -/
def rotl32 (n s : Nat) : Nat :=
  w32 (Nat.lor (Nat.shiftLeft n s) (Nat.shiftRight n (32 - s)))

/-- Big-endian 4-byte encoding of a 32-bit word, as in Go
`binary.Write(_, binary.BigEndian, uint32(v))`. -/
def be32 (n : Nat) : List Nat :=
  [(n / 16777216) % 256, (n / 65536) % 256, (n / 256) % 256, n % 256]

/-- Decode 4 big-endian bytes into a natural number. -/
def beNat4 (b : List Nat) : Nat :=
  b.getD 0 0 * 16777216 + b.getD 1 0 * 65536 + b.getD 2 0 * 256 + b.getD 3 0

/-- Decode 4 big-endian bytes as a signed `int32`, the behaviour of Go
`binary.Read(_, binary.BigEndian, &v)` for an `int32` target. -/
def beInt32 (b : List Nat) : Int :=
  let n := beNat4 b
  if n < 2147483648 then (n : Int) else (n : Int) - 4294967296

/-! # SHA-1 (Go `crypto/sha1`)

A faithful executable implementation of SHA-1 over byte lists, used by
the obfuscator key derivation. -/

/-- Merkle–Damgård padding of SHA-1: append 0x80, zero bytes to 56 mod 64,
and the 8-byte big-endian bit length. -/
def sha1Pad (msg : List Nat) : List Nat :=
  let len := msg.length
  let bitLen := len * 8
  let padZeros := (55 + 64 - len % 64) % 64
  msg ++ [128] ++ List.replicate padZeros 0 ++
    [(bitLen / 72057594037927936) % 256, (bitLen / 281474976710656) % 256,
     (bitLen / 1099511627776) % 256, (bitLen / 4294967296) % 256,
     (bitLen / 16777216) % 256, (bitLen / 65536) % 256,
     (bitLen / 256) % 256, bitLen % 256]

/-- Group bytes into big-endian 32-bit words. -/
def bytesToWords : List Nat → List Nat
  | a :: b :: c :: d :: rest =>
      (a * 16777216 + b * 65536 + c * 256 + d) :: bytesToWords rest
  | _ => []

/-- One step of the SHA-1 message-schedule expansion. -/
def sha1SchedStep (w : Array Nat) (t : Nat) : Array Nat :=
  w.push (rotl32 (Nat.xor (Nat.xor (w.get! (t - 3)) (w.get! (t - 8)))
    (Nat.xor (w.get! (t - 14)) (w.get! (t - 16)))) 1)

/-- Expand the 16 message words to the 80-word schedule. -/
def sha1Sched (w0 : Array Nat) : Array Nat :=
  (List.range 64).foldl (fun w i => sha1SchedStep w (i + 16)) w0

/-- Round function of SHA-1; the argument `t` selects the round family. -/
def sha1F (t b c d : Nat) : Nat :=
  if t < 20 then Nat.lor (Nat.land b c) (Nat.land (Nat.xor b 4294967295) d)
  else if t < 40 then Nat.xor (Nat.xor b c) d
  else if t < 60 then Nat.lor (Nat.lor (Nat.land b c) (Nat.land b d)) (Nat.land c d)
  else Nat.xor (Nat.xor b c) d

/-- Round constants of SHA-1. -/
def sha1K (t : Nat) : Nat :=
  if t < 20 then 1518500249
  else if t < 40 then 1859775393
  else if t < 60 then 2400959708
  else 3395469782

/-- One of the 80 SHA-1 rounds over the five-word working state. -/
def sha1Round (st : Nat × Nat × Nat × Nat × Nat) (w : Array Nat) (t : Nat) :
    Nat × Nat × Nat × Nat × Nat :=
  let (a, b, c, d, e) := st
  let tmp := w32 (rotl32 a 5 + sha1F t b c d + e + sha1K t + w.get! t)
  (tmp, a, rotl32 b 30, c, d)

/-- Compression of one 64-byte block into the chaining state. -/
def sha1Block (h : Nat × Nat × Nat × Nat × Nat) (block : List Nat) :
    Nat × Nat × Nat × Nat × Nat :=
  let w := sha1Sched (Array.mk (bytesToWords block))
  let (h0, h1, h2, h3, h4) := h
  let (a, b, c, d, e) := (List.range 80).foldl (fun st t => sha1Round st w t) h
  (w32 (h0 + a), w32 (h1 + b), w32 (h2 + c), w32 (h3 + d), w32 (h4 + e))

/-- Split a padded message into 64-byte blocks (fuel-based so that the
definition reduces in the kernel). -/
def chunks64Aux : Nat → List Nat → List (List Nat)
  | 0, _ => []
  | _, [] => []
  | fuel + 1, l => l.take 64 :: chunks64Aux fuel (l.drop 64)

/-- Split a padded message into 64-byte blocks. -/
def chunks64 (l : List Nat) : List (List Nat) := chunks64Aux l.length l

/-- Big-endian bytes of one 32-bit hash word. -/
def word2bytes (n : Nat) : List Nat :=
  [(n / 16777216) % 256, (n / 65536) % 256, (n / 256) % 256, n % 256]

/-- SHA-1 of a byte list, the 20-byte digest. -/
def sha1 (msg : List Nat) : List Nat :=
  let blocks := chunks64 (sha1Pad msg)
  let (h0, h1, h2, h3, h4) := blocks.foldl sha1Block
    (1732584193, 4023233417, 2562383102, 271733878, 3285377520)
  word2bytes h0 ++ word2bytes h1 ++ word2bytes h2 ++ word2bytes h3 ++ word2bytes h4

/-- Iterated re-hashing: `iterSha1 n d` applies SHA-1 to `d` in sequence
`n` times. -/
def iterSha1 : Nat → List Nat → List Nat
  | 0, d => d
  | n + 1, d => iterSha1 n (sha1 d)

/-! # RC4 (Go `crypto/rc4`) -/

/-- State of an RC4 stream cipher: the 256-byte permutation and the two
indices of the pseudo-random generation algorithm. -/
structure RC4State where
  s : List Nat
  i : Nat
  j : Nat
  deriving DecidableEq, Repr

/-- Swap the elements at positions `i` and `j` of a list (positions out of
range leave the list unchanged except through `List.set` semantics). -/
def lswap (l : List Nat) (i j : Nat) : List Nat :=
  let vi := l.getD i 0
  let vj := l.getD j 0
  (l.set i vj).set j vi

/-- Key-scheduling algorithm of RC4. -/
def rc4Ksa (key : List Nat) : List Nat :=
  let init := List.range 256
  ((List.range 256).foldl
    (fun (p : List Nat × Nat) i =>
      let (s, j) := p
      let j' := (j + s.getD i 0 + key.getD (i % key.length) 0) % 256
      (lswap s i j', j'))
    (init, 0)).1

/-- Go `rc4.NewCipher`: rejects keys outside 1..256 bytes, otherwise runs
the key schedule. -/
def rc4NewCipher (key : List Nat) : Except String RC4State :=
  if key.length < 1 ∨ key.length > 256 then
    .error "crypto/rc4: invalid key size"
  else
    .ok ⟨rc4Ksa key, 0, 0⟩

/-- One byte of RC4 keystream output together with the advanced state. -/
def rc4Step (st : RC4State) : Nat × RC4State :=
  let i := (st.i + 1) % 256
  let j := (st.j + st.s.getD i 0) % 256
  let s := lswap st.s i j
  let k := s.getD ((s.getD i 0 + s.getD j 0) % 256) 0
  (k, ⟨s, i, j⟩)

/-- Go `Cipher.XORKeyStream`: XOR the buffer with the keystream, advancing
the cipher state. -/
def rc4XorKeyStream (st : RC4State) (buf : List Nat) : List Nat × RC4State :=
  match buf with
  | [] => ([], st)
  | b :: rest =>
      let (k, st') := rc4Step st
      let (out, st'') := rc4XorKeyStream st' rest
      (Nat.xor b k :: out, st'')

/-! # The seeded PRNG

The `psiphon/common/prng` package is not among the given sources; only
its call sites are.  It is modelled from the specification, which
requires exactly that the PRNG be a deterministic function of its seed
("The same seed always yields the same ClientHello"), that seeds be
`SEED_LENGTH` random bytes, and that `Padding(min,max)` return between
`min` and `max` random bytes.  The concrete generator below is a
linear-congruential stand-in with those properties. -/

/-- Modelled from the spec: the `prng.SEED_LENGTH` constant of the
`psiphon/common/prng` package, which is absent from the sources.  The
seed of the seeded PRNG is this many bytes. -/
def PRNG_SEED_LENGTH : Nat := 32

/-- Modelled from the spec: a PRNG seed, `PRNG_SEED_LENGTH` bytes. -/
def PrngSeed := List Nat
deriving DecidableEq, Repr, Inhabited

/-- Modelled from the spec: the deterministic state of the seeded PRNG of
`psiphon/common/prng`, absent from the sources. -/
structure MPRNG where
  state : Nat
  deriving DecidableEq, Repr

/-- Modelled from the spec: `prng.NewPRNGWithSeed` — the generator state is
a deterministic function of the seed bytes. -/
def newPRNGWithSeed (seed : PrngSeed) : MPRNG :=
  ⟨(List.foldl (fun a b => a * 256 + b) 1 seed) % 18446744073709551616⟩

/-- Modelled from the spec: one step of the deterministic generator
(a 64-bit linear-congruential step). -/
def prngNext (p : MPRNG) : Nat × MPRNG :=
  let st := (p.state * 6364136223846793005 + 1442695040888963407) %
    18446744073709551616
  (st / 4294967296, ⟨st⟩)

/-- Modelled from the spec: `prng.Intn`-style bounded output, a
deterministic function of the generator state. -/
def prngIntn (p : MPRNG) (n : Nat) : Nat × MPRNG :=
  let (v, p') := prngNext p
  (if n = 0 then 0 else v % n, p')

/-- Modelled from the spec: a run of `n` random bytes from the generator. -/
def prngBytes : MPRNG → Nat → List Nat × MPRNG
  | p, 0 => ([], p)
  | p, n + 1 =>
      let (v, p') := prngIntn p 256
      let (rest, p'') := prngBytes p' n
      (v :: rest, p'')

/-- Modelled from the spec: `prng.Padding(min,max)` returns between `min`
and `max` random bytes, deterministically in the seed. -/
def prngPadding (p : MPRNG) (minP maxP : Nat) : List Nat × MPRNG :=
  let (r, p') := prngIntn p (maxP - minP + 1)
  prngBytes p' (minP + r)

/-- Modelled from the spec: `prng.Perm(n)`, a deterministic permutation of
`0..n-1` driven by the generator state (Fisher–Yates). -/
def prngPerm (p : MPRNG) (n : Nat) : List Nat × MPRNG :=
  (List.range n).foldl
    (fun (acc : List Nat × MPRNG) i =>
      let (l, q) := acc
      let (j, q') := prngIntn q (i + 1)
      (lswap l i j, q'))
    (List.range n, p)

/-- Modelled from the spec: `prng.NewSeed()` draws a fresh
`PRNG_SEED_LENGTH`-byte seed from system entropy; the entropy source is
an explicit input stream. -/
def prngNewSeed (entropy : Nat → Nat) : PrngSeed :=
  (List.range PRNG_SEED_LENGTH).map (fun i => entropy i % 256)

/-! # Obfuscator (package `obfuscator` in the sources)

Faithful embedding of the seed-message construction, iterated-SHA-1 key
derivation, and RC4 framing.  System entropy (`common.MakeSecureRandomBytes`,
`prng.NewSeed`) is an explicit input stream. -/

/-- Byte string of an ASCII string literal. -/
def strBytes (s : String) : List Nat := s.toList.map Char.toNat

def OBFUSCATE_SEED_LENGTH : Nat := 16

def OBFUSCATE_KEY_LENGTH : Nat := 16

def OBFUSCATE_HASH_ITERATIONS : Nat := 6000

def OBFUSCATE_MAX_PADDING : Nat := 8192

def OBFUSCATE_MAGIC_VALUE : Nat := 0x0BF5CA7E

def OBFUSCATE_CLIENT_TO_SERVER_IV : List Nat := strBytes "client_to_server"

def OBFUSCATE_SERVER_TO_CLIENT_IV : List Nat := strBytes "server_to_client"

/-- The `ObfuscatorConfig` of the sources.  `minPadding`/`maxPadding` are
Go `*int` fields, embedded as `Option Int`. -/
structure MObfuscatorConfig where
  keyword : List Nat
  paddingPRNGSeed : Option PrngSeed
  minPadding : Option Int
  maxPadding : Option Int

/-- The `Obfuscator` of the sources: staged seed message, padding length,
the two stream ciphers, and the padding PRNG seed and generator. -/
structure MObfuscator where
  seedMessage : List Nat
  paddingLength : Int
  clientToServerCipher : RC4State
  serverToClientCipher : RC4State
  paddingPRNGSeed : PrngSeed
  paddingPRNG : MPRNG
  deriving DecidableEq, Repr

/-- The `deriveKey` of the sources: SHA-1 of seed ‖ keyword ‖ iv, re-hashed
`OBFUSCATE_HASH_ITERATIONS` times, first `OBFUSCATE_KEY_LENGTH` bytes. -/
def deriveKey (obfuscatorSeed keyword iv : List Nat) : Except String (List Nat) :=
  let digest := iterSha1 OBFUSCATE_HASH_ITERATIONS (sha1 (obfuscatorSeed ++ keyword ++ iv))
  if digest.length < OBFUSCATE_KEY_LENGTH then
    .error "insufficient bytes for obfuscation key"
  else
    .ok (digest.take OBFUSCATE_KEY_LENGTH)

/-- The `initObfuscatorCiphers` of the sources: derive the two direction
keys from the obfuscator seed and the configured keyword and build the two
RC4 ciphers. -/
def initObfuscatorCiphers (obfuscatorSeed : List Nat) (config : MObfuscatorConfig) :
    Except String (RC4State × RC4State) := do
  let clientToServerKey ← deriveKey obfuscatorSeed config.keyword OBFUSCATE_CLIENT_TO_SERVER_IV
  let serverToClientKey ← deriveKey obfuscatorSeed config.keyword OBFUSCATE_SERVER_TO_CLIENT_IV
  let clientToServerCipher ← rc4NewCipher clientToServerKey
  let serverToClientCipher ← rc4NewCipher serverToClientKey
  return (clientToServerCipher, serverToClientCipher)

/-- Effective client minimum padding, lines 600–605 of the obfuscator
source: the configured minimum is used only when it lies within
`[prng.SEED_LENGTH, OBFUSCATE_MAX_PADDING]`; otherwise the default
`prng.SEED_LENGTH` stands. -/
def clientMinPadding (config : MObfuscatorConfig) : Int :=
  match config.minPadding with
  | some m =>
      if m ≥ (PRNG_SEED_LENGTH : Int) ∧ m ≤ (OBFUSCATE_MAX_PADDING : Int) then m
      else (PRNG_SEED_LENGTH : Int)
  | none => (PRNG_SEED_LENGTH : Int)

/-- Effective client maximum padding, lines 607–613 of the obfuscator
source: the configured maximum is used only when it lies within
`[prng.SEED_LENGTH, OBFUSCATE_MAX_PADDING]` and is at least the effective
minimum; otherwise the default `OBFUSCATE_MAX_PADDING` stands. -/
def clientMaxPadding (config : MObfuscatorConfig) : Int :=
  match config.maxPadding with
  | some m =>
      if m ≥ (PRNG_SEED_LENGTH : Int) ∧ m ≤ (OBFUSCATE_MAX_PADDING : Int) ∧
          m ≥ clientMinPadding config then m
      else (OBFUSCATE_MAX_PADDING : Int)
  | none => (OBFUSCATE_MAX_PADDING : Int)

/-- The `makeSeedMessage` of the sources: random padding from the padding
PRNG, then seed ‖ magic ‖ length ‖ padding with everything after the seed
encrypted under the client-to-server cipher.  Returns the message, the
padding length, and the advanced cipher and generator states. -/
def makeSeedMessage (paddingPRNG : MPRNG) (minPadding maxPadding : Nat)
    (obfuscatorSeed : List Nat) (clientToServerCipher : RC4State) :
    List Nat × Nat × RC4State × MPRNG :=
  let (padding, prng') := prngPadding paddingPRNG minPadding maxPadding
  let plain := be32 OBFUSCATE_MAGIC_VALUE ++ be32 padding.length ++ padding
  let (enc, cipher') := rc4XorKeyStream clientToServerCipher plain
  (obfuscatorSeed ++ enc, padding.length, cipher', prng')

/-- The 16-byte obfuscator seed of `NewClientObfuscator`, drawn from
system entropy (`common.MakeSecureRandomBytes`). -/
def clientObfuscatorSeed (entropy : Nat → Nat) : List Nat :=
  (List.range OBFUSCATE_SEED_LENGTH).map (fun i => entropy i % 256)

/-- The body of `NewClientObfuscator` once the padding PRNG seed is known
to be present: draw the 16-byte obfuscator seed from system entropy,
derive the two ciphers, resolve the padding bounds, and stage the seed
message. -/
def newClientObfuscatorWithSeed (config : MObfuscatorConfig)
    (paddingSeed : PrngSeed) (entropy : Nat → Nat) :
    Except String MObfuscator :=
  initObfuscatorCiphers (clientObfuscatorSeed entropy) config >>= fun ciphers =>
    let staged :=
      makeSeedMessage (newPRNGWithSeed paddingSeed)
        (clientMinPadding config).toNat (clientMaxPadding config).toNat
        (clientObfuscatorSeed entropy) ciphers.1
    .ok { seedMessage := staged.1
          paddingLength := (staged.2.1 : Int)
          clientToServerCipher := staged.2.2.1
          serverToClientCipher := ciphers.2
          paddingPRNGSeed := paddingSeed
          paddingPRNG := staged.2.2.2 }

/-- The `NewClientObfuscator` of the sources: reject a missing padding
seed, otherwise stage the obfuscator. -/
def NewClientObfuscator (config : MObfuscatorConfig) (entropy : Nat → Nat) :
    Except String MObfuscator :=
  match config.paddingPRNGSeed with
  | none => .error "missing padding seed"
  | some paddingSeed => newClientObfuscatorWithSeed config paddingSeed entropy

/-- Read `n` bytes from position `pos` of the input, as Go `io.ReadFull`:
on a short read the available bytes are consumed and an EOF error raised. -/
def readFull (input : List Nat) (pos n : Nat) : Except String (List Nat × Nat) :=
  if pos + n ≤ input.length then
    .ok ((input.drop pos).take n, pos + n)
  else
    .error "unexpected EOF"

/-- The padding stage of `readSeedMessage` (lines 808–835 of the
obfuscator source): decrypt the already-read padding bytes and derive the
padding PRNG seed from the first `prng.SEED_LENGTH` of them, or from
fresh system entropy when the client supplied fewer. -/
def readSeedPadding (cipher1 serverToClientCipher : RC4State)
    (entropy : Nat → Nat) (paddingEnc : List Nat × Nat) :
    Except String (RC4State × RC4State × PrngSeed) × Nat :=
  (.ok ((rc4XorKeyStream cipher1 paddingEnc.1).2, serverToClientCipher,
    if (rc4XorKeyStream cipher1 paddingEnc.1).1.length ≥ PRNG_SEED_LENGTH then
      (rc4XorKeyStream cipher1 paddingEnc.1).1.take PRNG_SEED_LENGTH
    else
      prngNewSeed entropy), paddingEnc.2)

/-- The validation stage of `readSeedMessage` (lines 781–814 of the
obfuscator source), applied to the already-read fixed-length fields:
decrypt them, validate the magic value first, the padding length second,
and only then read the padding from the stream. -/
def readSeedFields (input : List Nat)
    (clientToServerCipher serverToClientCipher : RC4State)
    (entropy : Nat → Nat) (fields : List Nat × Nat) :
    Except String (RC4State × RC4State × PrngSeed) × Nat :=
  if beInt32 ((rc4XorKeyStream clientToServerCipher fields.1).1.take 4) ≠
      (OBFUSCATE_MAGIC_VALUE : Int) then
    (.error "invalid magic value", fields.2)
  else if beInt32 ((rc4XorKeyStream clientToServerCipher fields.1).1.drop 4) < 0 ∨
      beInt32 ((rc4XorKeyStream clientToServerCipher fields.1).1.drop 4) >
        (OBFUSCATE_MAX_PADDING : Int) then
    (.error "invalid padding length", fields.2)
  else
    match readFull input fields.2
        (beInt32 ((rc4XorKeyStream clientToServerCipher fields.1).1.drop 4)).toNat with
    | .error e =>
        (.error e, min (fields.2 +
          (beInt32 ((rc4XorKeyStream clientToServerCipher fields.1).1.drop 4)).toNat)
          input.length)
    | .ok paddingEnc =>
        readSeedPadding (rc4XorKeyStream clientToServerCipher fields.1).2
          serverToClientCipher entropy paddingEnc

/-- The part of `readSeedMessage` that follows the cipher initialization
(lines 775–836 of the obfuscator source): read the two fixed-length
fields and hand them to the validation stage.  The second component is
the number of bytes consumed from the client stream. -/
def readSeedMessageWithCiphers (input : List Nat)
    (clientToServerCipher serverToClientCipher : RC4State)
    (entropy : Nat → Nat) :
    Except String (RC4State × RC4State × PrngSeed) × Nat :=
  match readFull input OBFUSCATE_SEED_LENGTH 8 with
  | .error e => (.error e, min (OBFUSCATE_SEED_LENGTH + 8) input.length)
  | .ok fields =>
      readSeedFields input clientToServerCipher serverToClientCipher entropy fields

/-- Case split on the result of cipher initialization inside
`readSeedMessage`: an error aborts at the current position, a success hands
off to the fixed-length-field stage. -/
def readSeedCiphersCase (input : List Nat) (entropy : Nat → Nat) (pos : Nat) :
    Except String (RC4State × RC4State) →
      Except String (RC4State × RC4State × PrngSeed) × Nat
  | .error e => (.error e, pos)
  | .ok ciphers =>
      readSeedMessageWithCiphers input ciphers.1 ciphers.2 entropy

/-- The cipher-initialization stage of `readSeedMessage`: derive the two
ciphers from the plaintext seed just read and hand off to the
fixed-length-field stage. -/
def readSeedCiphersStage (input : List Nat) (config : MObfuscatorConfig)
    (entropy : Nat → Nat) (seedRead : List Nat × Nat) :
    Except String (RC4State × RC4State × PrngSeed) × Nat :=
  readSeedCiphersCase input entropy seedRead.2
    (initObfuscatorCiphers seedRead.1 config)

/-- The `readSeedMessage` of the sources, over an explicit input stream:
read the plaintext obfuscator seed, derive the two ciphers from it, then
process the encrypted remainder.  Returns the result together with the
number of bytes consumed from the client stream. -/
def readSeedMessage (input : List Nat) (config : MObfuscatorConfig)
    (entropy : Nat → Nat) :
    Except String (RC4State × RC4State × PrngSeed) × Nat :=
  match readFull input 0 OBFUSCATE_SEED_LENGTH with
  | .error e => (.error e, min OBFUSCATE_SEED_LENGTH input.length)
  | .ok seedRead => readSeedCiphersStage input config entropy seedRead

/-- The `NewServerObfuscator` of the sources: read the seed message and
assemble the obfuscator with `paddingLength = -1` and the padding PRNG
seeded from the client message (or fresh entropy). -/
def NewServerObfuscator (input : List Nat) (config : MObfuscatorConfig)
    (entropy : Nat → Nat) : Except String MObfuscator :=
  match (readSeedMessage input config entropy).1 with
  | .error e => .error e
  | .ok (clientToServerCipher, serverToClientCipher, paddingPRNGSeed) =>
      .ok { seedMessage := []
            paddingLength := -1
            clientToServerCipher := clientToServerCipher
            serverToClientCipher := serverToClientCipher
            paddingPRNGSeed := paddingPRNGSeed
            paddingPRNG := newPRNGWithSeed paddingPRNGSeed }

/-! # Server-entry store (psiphon/dataStore.go)

The BoltDB-backed store is modelled as association lists from byte-string
keys to bucket values.  Serialized server-entry JSON is modelled by
`EntryData`: either a well-formed encoding of an entry or malformed bytes
(`json.Unmarshal` fails exactly on the latter).  The unseeded package
PRNG used by the iterator shuffle is an explicit stream input. -/

/-- Byte strings, the keys and raw values of the store. -/
abbrev ByteStr := List Nat

/-- Swap positions `i` and `j` of a list of byte strings. -/
def swapAt (l : List ByteStr) (i j : Nat) : List ByteStr :=
  let vi := l.getD i []
  let vj := l.getD j []
  (l.set i vj).set j vi

/-- Lookup in an association list, first match. -/
def alGet (l : List (ByteStr × α)) (k : ByteStr) : Option α :=
  match l with
  | [] => none
  | (k', v) :: rest => if k' = k then some v else alGet rest k

/-- Insert or replace in an association list, keeping storage order. -/
def alPut (l : List (ByteStr × α)) (k : ByteStr) (v : α) : List (ByteStr × α) :=
  match l with
  | [] => [(k, v)]
  | (k', v') :: rest =>
      if k' = k then (k', v) :: rest else (k', v') :: alPut rest k v

/-- A server entry as used by the store and iterator: the fields of
`protocol.ServerEntry` that the given sources read (`GetIPAddress`,
`ConfigurationVersion`, `Region`). -/
structure MServerEntry where
  ipAddress : ByteStr
  configurationVersion : Int
  region : ByteStr
  deriving DecidableEq, Repr

/-- Stored server-entry bytes: either a well-formed JSON encoding of an
entry or malformed data on which `json.Unmarshal` fails. -/
inductive EntryData where
  | valid (e : MServerEntry)
  | malformed
  deriving DecidableEq, Repr

/-- The buckets of the data store that the embedded operations touch. -/
structure MStore where
  serverEntries : List (ByteStr × EntryData)
  keyValues : List (ByteStr × ByteStr)
  dialParameters : List (ByteStr × ByteStr)
  deriving DecidableEq, Repr

def datastoreAffinityServerEntryIDKey : ByteStr := strBytes "affinityServerEntryID"

def datastoreLastServerEntryFilterKey : ByteStr := strBytes "lastServerEntryFilter"

/-- The client configuration fields the store and iterator read. -/
structure MConfig where
  egressRegion : ByteStr
  networkID : ByteStr
  replayCandidateCount : Int
  targetServerEntry : Option MServerEntry
  deriving DecidableEq, Repr

/-- Modelled from the spec: `protocol.ValidateServerEntryFields` (the
`protocol` package is absent from the sources); entries with empty
required fields are rejected. -/
def validateServerEntryFields (e : MServerEntry) : Bool :=
  e.ipAddress ≠ []

/-- The update decision of `StoreServerEntry`, lines 169–181 of
dataStore.go: parse the existing record's configuration version
(malformed or missing data leaves the sentinel `-1`), and update iff
there is no valid existing record, or `replaceIfExists`, or the incoming
version is strictly newer. -/
def storeServerEntryDecision (existingData : Option EntryData)
    (incomingVersion : Int) (replaceIfExists : Bool) : Bool :=
  let existingConfigurationVersion : Int :=
    match existingData with
    | some (.valid e) => e.configurationVersion
    | _ => -1
  let exists_ : Bool := existingConfigurationVersion > -1
  let newer : Bool := exists_ && existingConfigurationVersion < incomingVersion
  !exists_ || replaceIfExists || newer

/-- The `StoreServerEntry` of the sources: validate, then insert or
replace under the entry's IP address according to
`storeServerEntryDecision`. -/
def StoreServerEntry (serverEntryFields : MServerEntry) (replaceIfExists : Bool)
    (store : MStore) : Except String MStore :=
  if ¬ validateServerEntryFields serverEntryFields then
    .error "invalid server entry"
  else
    let ipAddress := serverEntryFields.ipAddress
    let existingData := alGet store.serverEntries ipAddress
    if storeServerEntryDecision existingData
        serverEntryFields.configurationVersion replaceIfExists then
      .ok { store with
        serverEntries :=
          alPut store.serverEntries ipAddress (.valid serverEntryFields) }
    else
      .ok store

/-- The `makeServerEntryFilterValue` of the sources: only the egress
region participates in the filter fingerprint. -/
def makeServerEntryFilterValue (config : MConfig) : ByteStr :=
  config.egressRegion

/-- The `PromoteServerEntry` of the sources: ignore an unknown server
entry; otherwise atomically set the affinity server entry ID and the
filter fingerprint under which it was promoted. -/
def PromoteServerEntry (config : MConfig) (ipAddress : ByteStr)
    (store : MStore) : Except String MStore :=
  match alGet store.serverEntries ipAddress with
  | none => .ok store
  | some _ =>
      .ok { store with
        keyValues :=
          alPut (alPut store.keyValues datastoreAffinityServerEntryIDKey ipAddress)
            datastoreLastServerEntryFilterKey (makeServerEntryFilterValue config) }

/-- The `hasServerEntryFilterChanged` of the sources: changed iff no
previous fingerprint was persisted or it differs byte-wise from the
current one. -/
def hasServerEntryFilterChanged (config : MConfig) (store : MStore) : Bool :=
  let currentFilter := makeServerEntryFilterValue config
  match alGet store.keyValues datastoreLastServerEntryFilterKey with
  | none => true
  | some previousFilter => previousFilter ≠ currentFilter

/-- The `makeDialParametersKey` of the sources: plain concatenation of
server IP address and network ID. -/
def makeDialParametersKey (serverIPAddress networkID : ByteStr) : ByteStr :=
  serverIPAddress ++ networkID

/-- Whether a dial-parameters record exists for this server on the given
network — the predicate the replay partition of `reset` tests. -/
def hasDialParametersRecord (store : MStore) (networkID : ByteStr)
    (serverEntryID : ByteStr) : Bool :=
  (alGet store.dialParameters (makeDialParametersKey serverEntryID networkID)).isSome

/-! # Server-entry iterator (psiphon/dataStore.go) -/

/-- The iterator state of the sources (the tactics and target variants are
carried but the claims exercise the store-backed tunnel iterator; the
tactics capability filter depends on the absent `protocol` package and is
not modelled). -/
structure MServerEntryIterator where
  applyServerAffinity : Bool
  serverEntryIDs : List ByteStr
  serverEntryIndex : Nat
  isTargetServerEntryIterator : Bool
  hasNextTargetServerEntry : Bool
  targetServerEntry : Option MServerEntry
  deriving DecidableEq, Repr

/-- The downward Fisher–Yates shuffle of `reset`, lines 531–534: for `i`
from the last index down to `shuffleHead`, swap position `i` with a
random position in `[shuffleHead, i]`.  The unseeded `prng.Intn` draws
are supplied by the stream `rs` (one value per loop index). -/
def fisherYatesGo (rs : Nat → Nat) (shuffleHead : Nat) :
    Nat → Nat → List ByteStr → List ByteStr
  | 0, _, a => a
  | fuel + 1, i, a =>
      if i < shuffleHead then a
      else
        let j := shuffleHead + rs i % (i + 1 - shuffleHead)
        fisherYatesGo rs shuffleHead fuel (i - 1) (swapAt a i j)

/-- The shuffle of `reset` over the region `[shuffleHead, length)`. -/
def fisherYates (rs : Nat → Nat) (shuffleHead : Nat) (a : List ByteStr) :
    List ByteStr :=
  fisherYatesGo rs shuffleHead a.length (a.length - 1) a

/-- Inner loop one of the replay partition, lines 555–559: advance `i`
toward `j` past identifiers that have a dial-parameters record. -/
def partFindI (has : ByteStr → Bool) (a : List ByteStr) :
    Nat → Nat → Nat → Nat
  | 0, i, _ => i
  | fuel + 1, i, j =>
      if i < j ∧ has (a.getD i []) then partFindI has a fuel (i + 1) j else i

/-- Inner loop two of the replay partition, lines 560–565: move `j` toward
`i` past identifiers that have no dial-parameters record. -/
def partFindJ (has : ByteStr → Bool) (a : List ByteStr) :
    Nat → Nat → Nat → Nat
  | 0, _, j => j
  | fuel + 1, i, j =>
      if i < j ∧ ¬ has (a.getD j []) then partFindJ has a fuel i (j - 1) else j

/-- The outer loop of the two-pointer replay partition, lines 553–574:
find the leftmost record-less identifier and the rightmost record-bearing
identifier, swap them, and continue inward until the pointers meet. -/
def partLoop (has : ByteStr → Bool) :
    Nat → List ByteStr → Nat → Nat → List ByteStr
  | 0, a, _, _ => a
  | fuel + 1, a, i, j =>
      let i1 := partFindI has a (j - i) i j
      let j1 := partFindJ has a (j - i1) i1 j
      if i1 < j1 then partLoop has fuel (swapAt a i1 j1) (i1 + 1) (j1 - 1)
      else a

/-- The replay partition of `reset`: identifiers with a dial-parameters
record are moved to the front of the shuffled region
`[shuffleHead, length)`. -/
def partitionReplay (has : ByteStr → Bool) (shuffleHead : Nat)
    (a : List ByteStr) : List ByteStr :=
  partLoop has a.length a shuffleHead (a.length - 1)

/-- The affinity head of `reset`, lines 506–514: in the initial round,
when affinity applies and a promote recorded an identifier, that
identifier occupies slot 0 and the shuffle starts at 1. -/
def resetAffinityHead (store : MStore) (applyServerAffinity isInitialRound : Bool) :
    Option ByteStr :=
  if isInitialRound ∧ applyServerAffinity then
    alGet store.keyValues datastoreAffinityServerEntryIDKey
  else
    none

/-- The collection scan of `reset`, lines 516–526: all server-entry keys
in storage order, skipping the affinity identifier when one was placed. -/
def resetCollectedIDs (store : MStore) (affinityID : Option ByteStr) :
    List ByteStr :=
  (store.serverEntries.map Prod.fst).filter
    (fun k => match affinityID with
      | some aid => k ≠ aid
      | none => true)

/-- The identifier list of `reset` before the replay partition: affinity
slot, collected identifiers, then the shuffle over the region past the
affinity slot. -/
def resetPrePartitionIDs (store : MStore)
    (applyServerAffinity isInitialRound : Bool) (rs : Nat → Nat) :
    List ByteStr × Nat :=
  let affinityID := resetAffinityHead store applyServerAffinity isInitialRound
  let shuffleHead := match affinityID with | some _ => 1 | none => 0
  let base := (match affinityID with | some aid => [aid] | none => []) ++
    resetCollectedIDs store affinityID
  (fisherYates rs shuffleHead base, shuffleHead)

/-- The `reset` of the sources (store-backed iterators): build the
pre-partition list, then in the initial round with a positive replay
candidate count partition record-bearing identifiers to the front of the
shuffled region.  Returns the identifier list and the shuffle head. -/
def resetServerEntryIDs (config : MConfig) (store : MStore)
    (applyServerAffinity isInitialRound : Bool) (rs : Nat → Nat) :
    List ByteStr × Nat :=
  let pre := resetPrePartitionIDs store applyServerAffinity isInitialRound rs
  if isInitialRound ∧ config.replayCandidateCount > 0 then
    (partitionReplay (hasDialParametersRecord store config.networkID) pre.2 pre.1,
     pre.2)
  else
    pre

/-- The target-entry branch of `newTargetServerEntryIterator` (tunnel
case; the tunnel-protocol capability check depends on the absent
`protocol` package and is not modelled). -/
def newTargetServerEntryIterator (config : MConfig) (e : MServerEntry) :
    Except String (Bool × MServerEntryIterator) :=
  if config.egressRegion ≠ [] ∧ e.region ≠ config.egressRegion then
    .error "TargetServerEntry does not support EgressRegion"
  else
    .ok (false,
      { applyServerAffinity := false
        serverEntryIDs := []
        serverEntryIndex := 0
        isTargetServerEntryIterator := true
        hasNextTargetServerEntry := true
        targetServerEntry := some e })

/-- The `NewServerEntryIterator` of the sources: the target-entry case
bypasses the store; otherwise affinity applies iff the persisted filter
fingerprint is unchanged, and the initial-round reset builds the ranked
identifier list. -/
def NewServerEntryIterator (config : MConfig) (store : MStore) (rs : Nat → Nat) :
    Except String (Bool × MServerEntryIterator) :=
  match config.targetServerEntry with
  | some e => newTargetServerEntryIterator config e
  | none =>
    let filterChanged := hasServerEntryFilterChanged config store
    let applyServerAffinity := !filterChanged
    let r := resetServerEntryIDs config store applyServerAffinity true rs
    .ok (applyServerAffinity,
      { applyServerAffinity := applyServerAffinity
        serverEntryIDs := r.1
        serverEntryIndex := 0
        isTargetServerEntryIterator := false
        hasNextTargetServerEntry := false
        targetServerEntry := none })

/-- The scan loop of `Next`, lines 619–679: load the entry under the next
identifier, skipping missing or malformed records, until one passes the
tunnel filter (egress region unconstrained or matching). -/
def iterNextGo (config : MConfig) (store : MStore) (ids : List ByteStr) :
    Nat → Nat → Option (MServerEntry × Nat)
  | 0, _ => none
  | fuel + 1, index =>
      if index ≥ ids.length then none
      else
        let serverEntryID := ids.getD index []
        match alGet store.serverEntries serverEntryID with
        | none => iterNextGo config store ids fuel (index + 1)
        | some .malformed => iterNextGo config store ids fuel (index + 1)
        | some (.valid serverEntry) =>
            if config.egressRegion = [] ∨ serverEntry.region = config.egressRegion then
              some (serverEntry, index + 1)
            else
              iterNextGo config store ids fuel (index + 1)

/-- The `Next` of the sources for store-backed iterators: `none` when the
cursor passes the last identifier, otherwise the next entry passing the
filters together with the advanced iterator. -/
def iterNext (config : MConfig) (store : MStore) (it : MServerEntryIterator) :
    Option MServerEntry × MServerEntryIterator :=
  if it.isTargetServerEntryIterator then
    if it.hasNextTargetServerEntry then
      (it.targetServerEntry, { it with hasNextTargetServerEntry := false })
    else
      (none, it)
  else
    match iterNextGo config store it.serverEntryIDs
        (it.serverEntryIDs.length - it.serverEntryIndex) it.serverEntryIndex with
    | none => (none, { it with serverEntryIndex := it.serverEntryIDs.length })
    | some (e, index') => (some e, { it with serverEntryIndex := index' })

/-! # Custom TLS dialer (psiphon/tlsDialer.go)

`CustomTLSDial` is embedded as a pure decision function.  The outcomes of
its effectful steps — the raw dial, `net.SplitHostPort`, the CA file
read, `prng.NewSeed`, the obfuscated-session-state construction, the
handshake race against cancellation, and certificate verification — are
supplied by a world record; the embedding tracks whether the raw
connection was opened and whether it was closed before returning. -/

/-- Hexadecimal digit value, as Go `encoding/hex`. -/
def hexDigit (c : Char) : Option Nat :=
  if '0' ≤ c ∧ c ≤ '9' then some (c.toNat - '0'.toNat)
  else if 'a' ≤ c ∧ c ≤ 'f' then some (c.toNat - 'a'.toNat + 10)
  else if 'A' ≤ c ∧ c ≤ 'F' then some (c.toNat - 'A'.toNat + 10)
  else none

/-- Go `hex.DecodeString`: pairs of hex digits; odd length or an invalid
digit is an error. -/
def hexDecodeString (s : String) : Except String (List Nat) :=
  let rec go : List Char → Except String (List Nat)
    | [] => .ok []
    | [_] => .error "encoding/hex: odd length hex string"
    | c1 :: c2 :: rest =>
        match hexDigit c1, hexDigit c2 with
        | some h, some l => do
            let tail ← go rest
            return (h * 16 + l) :: tail
        | _, _ => .error "encoding/hex: invalid byte"
  go s.toList

/-- The TLS profiles named by the sources' `getUTLSClientHelloID` switch. -/
inductive MTLSProfile where
  | iOS1131
  | android60
  | android51
  | chrome58
  | chrome57
  | firefox56
  | randomized
  | tls13Randomized
  deriving DecidableEq, Repr

/-- Modelled from the spec: `protocol.TLSProfileIsRandomized` (the
`protocol` package is absent from the sources); the randomized profiles
are the two randomized entries of the profile table. -/
def TLSProfileIsRandomized (p : MTLSProfile) : Bool :=
  p = .randomized ∨ p = .tls13Randomized

/-- Modelled from the spec: `protocol.TLSProfileIsTLS13`; the TLS 1.3
band contains exactly the randomized TLS 1.3 profile. -/
def TLSProfileIsTLS13 (p : MTLSProfile) : Bool :=
  p = .tls13Randomized

/-- The `useUTLS` of the sources: every profile except the TLS 1.3
randomized one is served by the utls provider. -/
def useUTLS (p : MTLSProfile) : Bool :=
  p ≠ .tls13Randomized

/-- The `CustomTLSConfig` fields that `CustomTLSDial` reads. -/
structure MTLSDialConfig where
  dialAddrOverride : Option String
  useDialAddrSNI : Bool
  sniServerName : String
  skipVerify : Bool
  verifyLegacyCertificate : Option ByteStr
  tlsProfile : Option MTLSProfile
  randomizedTLSProfileSeed : Option PrngSeed
  trustedCACertificatesFilename : Option String
  obfuscatedSessionTicketKey : String

/-- Outcomes of the effectful steps of one `CustomTLSDial` run. -/
structure MDialWorld where
  dialOk : Bool
  splitHost : Option String
  selectedProfile : MTLSProfile
  readFileOk : Bool
  newSeedOk : Bool
  obfuscatedSessionStateOk : Bool
  ctxDone : Bool
  handshakeOk : Bool
  verifyLegacyOk : Bool
  verifyCertsOk : Bool

instance {ε α : Type} [DecidableEq ε] [DecidableEq α] : DecidableEq (Except ε α) :=
  fun a b =>
    match a, b with
    | .ok x, .ok y =>
        if h : x = y then .isTrue (by rw [h]) else .isFalse (fun he => h (Except.ok.inj he))
    | .error x, .error y =>
        if h : x = y then .isTrue (by rw [h]) else .isFalse (fun he => h (Except.error.inj he))
    | .ok _, .error _ => .isFalse Except.noConfusion
    | .error _, .ok _ => .isFalse Except.noConfusion

/-- Observable outcome of one `CustomLSDial` run: the result, whether the
raw connection was opened, and whether it was closed before returning. -/
structure MDialOutcome where
  result : Except String Unit
  rawConnOpened : Bool
  rawConnClosed : Bool
  deriving DecidableEq, Repr

/-- The `CustomTLSDial` of the sources, step by step in source order:
raw dial; host/port split (close on failure); profile selection; SNI
decision; obfuscated-session-ticket key decode; CA file read; randomized
seed generation; provider branch with the TLS 1.3 sanity check; the
handshake raced against cancellation (cancellation closes the raw
connection); deferred verification; and the final error path, which
closes the raw connection. -/
def CustomTLSDial (config : MTLSDialConfig) (world : MDialWorld) : MDialOutcome :=
  if ¬ world.dialOk then
    { result := .error "dial failed", rawConnOpened := false, rawConnClosed := false }
  else
    match world.splitHost with
    | none =>
        { result := .error "split host port failed",
          rawConnOpened := true, rawConnClosed := true }
    | some _hostname =>
      let selectedTLSProfile :=
        match config.tlsProfile with
        | some p => p
        | none => world.selectedProfile
      let tlsConfigInsecureSkipVerify :=
        config.skipVerify ||
          (!config.useDialAddrSNI &&
            !(config.sniServerName ≠ "" && config.verifyLegacyCertificate = none))
      let sessionKeyBad : Bool :=
        config.obfuscatedSessionTicketKey ≠ "" &&
          (match hexDecodeString config.obfuscatedSessionTicketKey with
           | .error _ => true
           | .ok key => key.length ≠ 32)
      if sessionKeyBad then
        { result := .error "invalid obfuscated session key",
          rawConnOpened := true, rawConnClosed := false }
      else if (!config.skipVerify && config.verifyLegacyCertificate = none &&
          config.trustedCACertificatesFilename ≠ none) && !world.readFileOk then
        { result := .error "read CA file failed",
          rawConnOpened := true, rawConnClosed := false }
      else if (TLSProfileIsRandomized selectedTLSProfile &&
          config.randomizedTLSProfileSeed = none) && !world.newSeedOk then
        { result := .error "new seed failed",
          rawConnOpened := true, rawConnClosed := false }
      else if useUTLS selectedTLSProfile &&
          (config.obfuscatedSessionTicketKey ≠ "" &&
            !world.obfuscatedSessionStateOk) then
        { result := .error "new obfuscated client session state failed",
          rawConnOpened := true, rawConnClosed := false }
      else if !useUTLS selectedTLSProfile &&
          !TLSProfileIsTLS13 selectedTLSProfile then
        { result := .error "TLS profile is not TLS 1.3",
          rawConnOpened := true, rawConnClosed := false }
      else
        let (handshakeErr, closedBySelect) :=
          if world.ctxDone then (some "context canceled", true)
          else if world.handshakeOk then (none, false)
          else (some "handshake failed", false)
        let err :=
          match handshakeErr with
          | some e => some e
          | none =>
              if !config.skipVerify && tlsConfigInsecureSkipVerify then
                match config.verifyLegacyCertificate with
                | some _ => if world.verifyLegacyOk then none
                    else some "unexpected certificate"
                | none => if world.verifyCertsOk then none
                    else some "certificate verification failed"
              else none
        match err with
        | some e =>
            { result := .error e, rawConnOpened := true, rawConnClosed := true }
        | none =>
            { result := .ok (), rawConnOpened := true,
              rawConnClosed := closedBySelect }

/-! # Randomized ClientHello assembler (vendored utls u_parrots.go)

`parrotRandomizedNoALPN` is embedded over the modelled seeded PRNG.  The
32-byte `hello.Random` field is filled by `fillClientHelloHeader` from
`config.rand()` — system entropy, an explicit input stream here, not the
seeded PRNG.  The cipher-suite table and the numeric identifiers of
suites, curves and signature algorithms live in utls files absent from
the sources and are modelled; only their identities matter to the
claims.  Go `float32` threshold arithmetic in `tossBiasedCoin` is
modelled with exact rationals. -/

/-- Swap positions `i` and `j` of a list, with an explicit default. -/
def swapD (d : α) (l : List α) (i j : Nat) : List α :=
  let vi := l.getD i d
  let vj := l.getD j d
  (l.set i vj).set j vi

/-- One entry of the cipher-suite table: numeric identifier and the
`suiteTLS12` flag (a suite is obsolete when the flag is unset). -/
structure MCipherSuite where
  id : Nat
  tls12 : Bool
  deriving DecidableEq, Repr

/-- Modelled from the spec: the `cipherSuites` implementation table of the
vendored TLS library, absent from the sources; a representative table
with both modern and obsolete suites. -/
def cipherSuitesTable : List MCipherSuite :=
  [⟨49195, true⟩, ⟨49199, true⟩, ⟨49196, true⟩, ⟨49200, true⟩,
   ⟨52393, true⟩, ⟨52392, true⟩, ⟨156, true⟩, ⟨157, true⟩,
   ⟨47, false⟩, ⟨53, false⟩, ⟨10, false⟩]

/-- Modelled from the spec: `defaultCipherSuites()` of the vendored TLS
library — the identifiers of the implemented suites. -/
def defaultCipherSuites : List Nat := cipherSuitesTable.map MCipherSuite.id

/-- The `sortableCipher` of the sources: suite, obsolescence, random tag. -/
structure MSortableCipher where
  isObsolete : Bool
  randomTag : Nat
  suite : Nat
  deriving DecidableEq, Repr

/-- The `Less` ordering of `sortableCiphers`: obsolete suites sort after
all current ones, ties broken by the random tag. -/
def sortableCipherLess (x y : MSortableCipher) : Bool :=
  if x.isObsolete ∧ ¬ y.isObsolete then false
  else if y.isObsolete ∧ ¬ x.isObsolete then true
  else x.randomTag < y.randomTag

/-- Insertion of one element into a list sorted by `sortableCipherLess`. -/
def insertSortable (x : MSortableCipher) : List MSortableCipher → List MSortableCipher
  | [] => [x]
  | y :: rest =>
      if sortableCipherLess x y then x :: y :: rest
      else y :: insertSortable x rest

/-- Sorting by `sortableCipherLess`; the random tags are distinct, so the
order is a total one and `sort.Sort`'s result is this unique sorted
arrangement. -/
def sortSortable : List MSortableCipher → List MSortableCipher
  | [] => []
  | x :: rest => insertSortable x (sortSortable rest)

/-- The `shuffledCiphers` of the sources: tag each table suite with a
random permutation value and sort, keeping obsolete suites at the tail. -/
def shuffledCiphers (p : MPRNG) : List Nat × MPRNG :=
  let (perm, p') := prngPerm p cipherSuitesTable.length
  let ciphers := (List.range cipherSuitesTable.length).map (fun i =>
    let suite := cipherSuitesTable.getD i ⟨0, true⟩
    MSortableCipher.mk (! suite.tls12) (perm.getD i 0) suite.id)
  ((sortSortable ciphers).map MSortableCipher.suite, p')

/-- The `tossBiasedCoin` of the sources with the probability given as the
exact rational `num/den`: threshold `0xffff · num/den`, drawn value in
`[0, 0xffff)`, true iff the value is at most the threshold. -/
def tossBiasedCoin (p : MPRNG) (num den : Nat) : Bool × MPRNG :=
  let threshold := 65535 * num / den
  let (value, p') := prngIntn p 65535
  (value ≤ threshold, p')

/-- The removal loop of `removeRandomCiphers`: index `i` over the shrinking
list, removal probability `maxRemovalProbability · i / floatLen` with
`floatLen` the initial length; a removed element keeps `i` in place.
`maxRemovalProbability` is the rational `pnum/pden`. -/
def removeRandomCiphersGo (pnum pden floatLen : Nat) :
    Nat → Nat → List Nat → MPRNG → List Nat × MPRNG
  | 0, _, s, p => (s, p)
  | fuel + 1, i, s, p =>
      if i < s.length then
        let (toss, p') := tossBiasedCoin p (pnum * i) (pden * floatLen)
        if toss then
          removeRandomCiphersGo pnum pden floatLen fuel i
            (s.take i ++ s.drop (i + 1)) p'
        else
          removeRandomCiphersGo pnum pden floatLen fuel (i + 1) s p'
      else (s, p)

/-- The `removeRandomCiphers` of the sources with probability 0.4: never
removes the first suite, removal probability growing along the list. -/
def removeRandomCiphers (p : MPRNG) (s : List Nat) : List Nat × MPRNG :=
  if s.length ≤ 1 then (s, p)
  else removeRandomCiphersGo 2 5 s.length (s.length * s.length + 1) 1 s p

/-- Curve identifiers (IANA): X25519, P-256, P-384, P-521. -/
def curveX25519 : Nat := 29

def curveP256 : Nat := 23

def curveP384 : Nat := 24

def curveP521 : Nat := 25

/-- Hash identifiers of `SignatureAndHash` pairs. -/
def hashSHA1 : Nat := 2

def hashSHA256 : Nat := 4

def hashSHA384 : Nat := 5

def disabledHashSHA512 : Nat := 6

/-- Signature identifiers of `SignatureAndHash` pairs. -/
def signatureRSA : Nat := 1

def signatureECDSA : Nat := 3

/-- The TLS extensions that `parrotRandomizedNoALPN` assembles. -/
inductive MExt where
  | sni (serverName : ByteStr)
  | sessionTicket (session : Option ByteStr)
  | sigAndHash (algos : List (Nat × Nat))
  | points
  | curves (ids : List Nat)
  | padding
  | status
  | sct
  | reneg
  | alpn (protocols : List ByteStr)
  deriving DecidableEq, Repr

/-- The assembled ClientHello configuration: the fields of
`HandshakeState.Hello` that the parrot functions set. -/
structure MHello where
  vers : Nat
  random : List Nat
  sessionId : List Nat
  cipherSuites : List Nat
  compressionMethods : List Nat
  extensions : List MExt
  deriving DecidableEq, Repr

/-- Modelled from the spec: the `crypto/sha256` digest used for the
session ID of a resumed session; the standard library is outside the
sources, so a deterministic stand-in digest is used (no claim depends on
its value). -/
def mSha256 (t : ByteStr) : ByteStr := (sha1 t ++ sha1 (0 :: t)).take 32

/-- The swap-by-permutation loop of `shuffleSignatures` and
`shuffleTLSExtensions`: for each index `i`, swap `s[i]` with `s[perm[i]]`. -/
def shuffleByPerm (d : α) (s : List α) (perm : List Nat) : List α :=
  (List.range s.length).foldl (fun acc i => swapD d acc i (perm.getD i 0)) s

/-- The `parrotRandomizedNoALPN` of the sources: every structural choice —
shuffled and culled cipher suites, signature-algorithm set and order,
curve subset, optional-extension inclusion and extension order — is
driven by the PRNG seeded from `clientHelloPRNGSeed`; only the 32-byte
`Random` field comes from system entropy. -/
def parrotRandomizedNoALPN (clientHelloPRNGSeed : Option PrngSeed)
    (entropy : Nat → Nat) (serverName : ByteStr) (session : Option ByteStr) :
    Except String MHello :=
  match clientHelloPRNGSeed with
  | none => .error "missing UConn.clientHelloPRNGSeed"
  | some seed =>
    let p0 := newPRNGWithSeed seed
    let shuffled := shuffledCiphers p0
    let culled := removeRandomCiphers shuffled.2 shuffled.1
    let random := (List.range 32).map (fun i => entropy i % 256)
    let sessionId : List Nat :=
      match session with
      | some ticket => if ticket.length > 0 then mSha256 ticket else []
      | none => []
    let baseSigAlgos : List (Nat × Nat) :=
      [(hashSHA256, signatureECDSA), (hashSHA256, signatureRSA),
       (hashSHA384, signatureECDSA), (hashSHA384, signatureRSA),
       (hashSHA1, signatureRSA)]
    let toss1 := tossBiasedCoin culled.2 1 2
    let algos1 := if toss1.1 then baseSigAlgos ++ [(disabledHashSHA512, signatureECDSA)]
      else baseSigAlgos
    let toss2 := tossBiasedCoin toss1.2 1 2
    let algos2 := if toss2.1 then algos1 ++ [(disabledHashSHA512, signatureRSA)]
      else algos1
    let toss3 := tossBiasedCoin toss2.2 1 2
    let algos3 := if toss3.1 then algos2 ++ [(hashSHA1, signatureECDSA)] else algos2
    let sigPerm := prngPerm toss3.2 algos3.length
    let sigAndHashAlgos := shuffleByPerm (0, 0) algos3 sigPerm.1
    let tossX := tossBiasedCoin sigPerm.2 7 10
    let curves1 := if tossX.1 then [curveX25519] else []
    let curves2 := curves1 ++ [curveP256, curveP384]
    let tossP521 := tossBiasedCoin tossX.2 3 10
    let curveIDs := if tossP521.1 then curves2 ++ [curveP521] else curves2
    let exts0 : List MExt :=
      [.sni serverName, .sessionTicket session, .sigAndHash sigAndHashAlgos,
       .points, .curves curveIDs]
    let tossPad := tossBiasedCoin tossP521.2 33 50
    let exts1 := if tossPad.1 then exts0 ++ [.padding] else exts0
    let tossStatus := tossBiasedCoin tossPad.2 33 50
    let exts2 := if tossStatus.1 then exts1 ++ [.status] else exts1
    let tossSct := tossBiasedCoin tossStatus.2 11 20
    let exts3 := if tossSct.1 then exts2 ++ [.sct] else exts2
    let tossReneg := tossBiasedCoin tossSct.2 11 25
    let exts4 := if tossReneg.1 then exts3 ++ [.reneg] else exts3
    let extPerm := prngPerm tossReneg.2 exts4.length
    let extensions := shuffleByPerm (.points) exts4 extPerm.1
    .ok { vers := 771
          random := random
          sessionId := sessionId
          cipherSuites := culled.1
          compressionMethods := [0]
          extensions := extensions }

/-- The `parrotRandomizedALPN` of the sources: the no-ALPN assembly with
an ALPN extension appended (the popular default when the caller did not
configure protocols). -/
def parrotRandomizedALPN (clientHelloPRNGSeed : Option PrngSeed)
    (entropy : Nat → Nat) (serverName : ByteStr) (session : Option ByteStr)
    (nextProtos : List ByteStr) : Except String MHello :=
  match parrotRandomizedNoALPN clientHelloPRNGSeed entropy serverName session with
  | .error e => .error e
  | .ok hello =>
      let protos := if nextProtos.length = 0 then
        [strBytes "h2", strBytes "http/1.1"] else nextProtos
      .ok { hello with extensions := hello.extensions ++ [.alpn protos] }

/-- The `HelloRandomized` alias of `generateClientHelloConfig`: an
unseeded package-level coin flip (`prng.FlipCoin`, an explicit input
here) selects between the ALPN and no-ALPN randomized assemblies. -/
def generateClientHelloConfigRandomized (flipCoin : Bool)
    (clientHelloPRNGSeed : Option PrngSeed) (entropy : Nat → Nat)
    (serverName : ByteStr) (session : Option ByteStr)
    (nextProtos : List ByteStr) : Except String MHello :=
  if flipCoin then
    parrotRandomizedALPN clientHelloPRNGSeed entropy serverName session nextProtos
  else
    parrotRandomizedNoALPN clientHelloPRNGSeed entropy serverName session

/-! # Statement-level helper definitions -/

/-- The key derivation as the specification words it: start with
SHA-1(seed ‖ keyword ‖ directionTag), re-hash 6000 times, take the first
16 bytes. -/
def specDerivedKey (seed keyword directionTag : List Nat) : List Nat :=
  (iterSha1 6000 (sha1 (seed ++ keyword ++ directionTag))).take 16

/-- The decrypted fixed-length fields of a seed message: bytes 16–23 of
the input decrypted under the client-to-server cipher.  The first four
bytes parse as the big-endian `int32` magic value, the next four as the
padding length. -/
@[reducible] def decryptedSeedFields (input : List Nat) (clientToServerCipher : RC4State) : List Nat :=
  (rc4XorKeyStream clientToServerCipher
    ((input.drop OBFUSCATE_SEED_LENGTH).take 8)).1

/-- The PRNG-driven part of an assembled ClientHello: every field except
the 32-byte `Random`, which `fillClientHelloHeader` draws from system
entropy. -/
def helloStablePart (h : MHello) :
    Nat × List Nat × List Nat × List Nat × List MExt :=
  (h.vers, h.sessionId, h.cipherSuites, h.compressionMethods, h.extensions)

/-! # Swap lemmas for the shuffle and the replay partition -/

theorem swapAt_eq (a : List ByteStr) (i j : Nat) :
    swapAt a i j = (a.set i (a.getD j [])).set j (a.getD i []) := rfl

theorem swapAt_length (a : List ByteStr) (i j : Nat) :
    (swapAt a i j).length = a.length := by
  rw [swapAt_eq, List.length_set, List.length_set]

theorem swapAt_getD_ne (a : List ByteStr) (i j k : Nat)
    (hki : k ≠ i) (hkj : k ≠ j) :
    (swapAt a i j).getD k [] = a.getD k [] := by
  rw [swapAt_eq, List.getD_eq_getElem?_getD,
      List.getElem?_set_ne (Ne.symm hkj), List.getElem?_set_ne (Ne.symm hki),
      List.getD_eq_getElem?_getD]

theorem swapAt_getD_right (a : List ByteStr) (i j : Nat) (hj : j < a.length) :
    (swapAt a i j).getD j [] = a.getD i [] := by
  rw [swapAt_eq, List.getD_eq_getElem?_getD,
      List.getElem?_set_self (by rw [List.length_set]; exact hj)]
  rfl

theorem swapAt_getD_left (a : List ByteStr) (i j : Nat) (hij : i ≠ j)
    (hi : i < a.length) :
    (swapAt a i j).getD i [] = a.getD j [] := by
  rw [swapAt_eq, List.getD_eq_getElem?_getD, List.getElem?_set_ne (Ne.symm hij),
      List.getElem?_set_self hi]
  rfl

theorem getD_cons_perm : ∀ (t : List ByteStr) (m : Nat) (x : ByteStr),
    m < t.length → (t.getD m [] :: t.set m x).Perm (x :: t) := by
  intro t
  induction t with
  | nil => intro m x hm; exact absurd hm (by simp)
  | cons y s ih =>
    intro m x hm
    match m with
    | 0 => exact List.Perm.swap x y s
    | k + 1 =>
      have hk : k < s.length := Nat.lt_of_succ_lt_succ hm
      show (s.getD k [] :: y :: s.set k x).Perm (x :: y :: s)
      exact ((List.Perm.swap y (s.getD k []) (s.set k x)).trans
        (List.Perm.cons y (ih k x hk))).trans (List.Perm.swap x y s)

theorem swapAt_perm : ∀ (a : List ByteStr) (i j : Nat),
    i < a.length → j < a.length → (swapAt a i j).Perm a := by
  intro a
  induction a with
  | nil => intro i j hi _; exact absurd hi (by simp)
  | cons x t ih =>
    intro i j hi hj
    rw [swapAt_eq]
    match i, j with
    | 0, 0 => exact List.Perm.refl _
    | 0, k + 1 =>
      show (t.getD k [] :: t.set k x).Perm (x :: t)
      exact getD_cons_perm t k x (Nat.lt_of_succ_lt_succ hj)
    | m + 1, 0 =>
      show (t.getD m [] :: t.set m x).Perm (x :: t)
      exact getD_cons_perm t m x (Nat.lt_of_succ_lt_succ hi)
    | m + 1, k + 1 =>
      show (x :: (t.set m (t.getD k [])).set k (t.getD m [])).Perm (x :: t)
      refine List.Perm.cons x ?_
      have := ih m k (Nat.lt_of_succ_lt_succ hi) (Nat.lt_of_succ_lt_succ hj)
      rwa [swapAt_eq] at this

/-! # Shuffle and partition preserve length and the affinity slot -/

theorem fisherYatesGo_length (rs : Nat → Nat) (sh : Nat) :
    ∀ (fuel i : Nat) (a : List ByteStr),
      (fisherYatesGo rs sh fuel i a).length = a.length := by
  intro fuel
  induction fuel with
  | zero => intro i a; rfl
  | succ n ih =>
    intro i a
    unfold fisherYatesGo
    split
    · rfl
    · rw [ih, swapAt_length]

theorem fisherYates_length (rs : Nat → Nat) (sh : Nat) (a : List ByteStr) :
    (fisherYates rs sh a).length = a.length := by
  unfold fisherYates
  rw [fisherYatesGo_length]

theorem fisherYatesGo_getD_lt (rs : Nat → Nat) (sh : Nat) :
    ∀ (fuel i : Nat) (a : List ByteStr) (k : Nat), k < sh →
      (fisherYatesGo rs sh fuel i a).getD k [] = a.getD k [] := by
  intro fuel
  induction fuel with
  | zero => intro i a k _; rfl
  | succ n ih =>
    intro i a k hk
    unfold fisherYatesGo
    split
    · rfl
    · rename_i hns
      have hi : sh ≤ i := Nat.le_of_not_lt hns
      rw [ih, swapAt_getD_ne]
      · omega
      · omega
      · exact hk

theorem fisherYates_getD_lt (rs : Nat → Nat) (sh : Nat) (a : List ByteStr)
    (k : Nat) (hk : k < sh) :
    (fisherYates rs sh a).getD k [] = a.getD k [] := by
  unfold fisherYates
  rw [fisherYatesGo_getD_lt]
  exact hk

/-! # Two-pointer partition: pointer-scan facts -/

theorem partFindI_ge (has : ByteStr → Bool) (a : List ByteStr) :
    ∀ (fuel i j : Nat), i ≤ partFindI has a fuel i j := by
  intro fuel
  induction fuel with
  | zero => intro i j; exact Nat.le_refl i
  | succ n ih =>
    intro i j
    unfold partFindI
    split
    · exact Nat.le_trans (Nat.le_succ i) (ih (i + 1) j)
    · exact Nat.le_refl i

theorem partFindI_scanned (has : ByteStr → Bool) (a : List ByteStr) :
    ∀ (fuel i j k : Nat), i ≤ k → k < partFindI has a fuel i j →
      has (a.getD k []) = true := by
  intro fuel
  induction fuel with
  | zero => intro i j k hik hk; exact absurd (Nat.lt_of_le_of_lt hik hk) (Nat.lt_irrefl i)
  | succ n ih =>
    intro i j k hik hk
    rw [partFindI] at hk
    by_cases hcond : i < j ∧ has (a.getD i []) = true
    · rw [if_pos hcond] at hk
      rcases Nat.eq_or_lt_of_le hik with he | hlt
      · rw [← he]; exact hcond.2
      · exact ih (i + 1) j k hlt hk
    · rw [if_neg hcond] at hk
      exact absurd (Nat.lt_of_le_of_lt hik hk) (Nat.lt_irrefl i)

theorem partFindI_stop (has : ByteStr → Bool) (a : List ByteStr) :
    ∀ (fuel i j : Nat), j ≤ i + fuel → partFindI has a fuel i j < j →
      has (a.getD (partFindI has a fuel i j) []) = false := by
  intro fuel
  induction fuel with
  | zero => intro i j hfuel hlt; exact absurd (Nat.lt_of_le_of_lt hfuel hlt) (Nat.lt_irrefl _)
  | succ n ih =>
    intro i j hfuel hlt
    rw [partFindI] at hlt ⊢
    by_cases hcond : i < j ∧ has (a.getD i []) = true
    · rw [if_pos hcond] at hlt ⊢
      exact ih (i + 1) j (by omega) hlt
    · rw [if_neg hcond] at hlt ⊢
      cases hval : has (a.getD i []) with
      | false => rfl
      | true => exact absurd ⟨hlt, hval⟩ hcond

theorem partFindJ_le (has : ByteStr → Bool) (a : List ByteStr) :
    ∀ (fuel i j : Nat), partFindJ has a fuel i j ≤ j := by
  intro fuel
  induction fuel with
  | zero => intro i j; exact Nat.le_refl j
  | succ n ih =>
    intro i j
    unfold partFindJ
    split
    · exact Nat.le_trans (ih i (j - 1)) (Nat.sub_le j 1)
    · exact Nat.le_refl j

theorem partFindJ_scanned (has : ByteStr → Bool) (a : List ByteStr) :
    ∀ (fuel i j k : Nat), partFindJ has a fuel i j < k → k ≤ j →
      has (a.getD k []) = false := by
  intro fuel
  induction fuel with
  | zero => intro i j k hk hkj; exact absurd (Nat.lt_of_lt_of_le hk hkj) (Nat.lt_irrefl _)
  | succ n ih =>
    intro i j k hk hkj
    rw [partFindJ] at hk
    by_cases hcond : i < j ∧ ¬ has (a.getD j []) = true
    · rw [if_pos hcond] at hk
      rcases Nat.eq_or_lt_of_le hkj with he | hlt
      · rw [he]
        cases hval : has (a.getD j []) with
        | false => rfl
        | true => exact absurd hval hcond.2
      · exact ih i (j - 1) k hk (by omega)
    · rw [if_neg hcond] at hk
      exact absurd (Nat.lt_of_lt_of_le hk hkj) (Nat.lt_irrefl _)

theorem partFindJ_stop (has : ByteStr → Bool) (a : List ByteStr) :
    ∀ (fuel i j : Nat), j ≤ i + fuel → i < partFindJ has a fuel i j →
      has (a.getD (partFindJ has a fuel i j) []) = true := by
  intro fuel
  induction fuel with
  | zero => intro i j hfuel hlt; exact absurd (Nat.lt_of_lt_of_le hlt hfuel) (Nat.lt_irrefl _)
  | succ n ih =>
    intro i j hfuel hlt
    rw [partFindJ] at hlt ⊢
    by_cases hcond : i < j ∧ ¬ has (a.getD j []) = true
    · rw [if_pos hcond] at hlt ⊢
      exact ih i (j - 1) (by omega) hlt
    · rw [if_neg hcond] at hlt ⊢
      cases hval : has (a.getD j []) with
      | false => exact absurd ⟨hlt, by rw [hval]; exact Bool.false_ne_true⟩ hcond
      | true => rfl

/-! # Two-pointer partition: main invariant -/

theorem partLoop_spec (has : ByteStr → Bool) :
    ∀ (fuel : Nat) (a : List ByteStr) (i j sh hb : Nat),
      sh ≤ i → j ≤ hb → hb < a.length → j + 1 ≤ i + fuel →
      (∀ k, sh ≤ k → k < i → has (a.getD k []) = true) →
      (∀ k, j < k → k ≤ hb → has (a.getD k []) = false) →
      (partLoop has fuel a i j).Perm a ∧
      (∀ p q, sh ≤ p → p ≤ q → q ≤ hb →
        has ((partLoop has fuel a i j).getD q []) = true →
        has ((partLoop has fuel a i j).getD p []) = true) := by
  intro fuel
  induction fuel with
  | zero =>
    intro a i j sh hb hshi hjhb hlen hfuel inv1 inv2
    refine ⟨List.Perm.refl a, ?_⟩
    intro p q hp hpq hq hhq
    rw [show partLoop has 0 a i j = a from rfl] at hhq
    show has (a.getD p []) = true
    by_cases hqj : q ≤ j
    · exact inv1 p hp (by omega)
    · rw [show has (a.getD q []) = false from inv2 q (by omega) hq] at hhq
      exact absurd hhq Bool.false_ne_true
  | succ n ih =>
    intro a i j sh hb hshi hjhb hlen hfuel inv1 inv2
    have hred : partLoop has (n + 1) a i j =
        (if partFindI has a (j - i) i j <
            partFindJ has a (j - partFindI has a (j - i) i j)
              (partFindI has a (j - i) i j) j then
          partLoop has n
            (swapAt a (partFindI has a (j - i) i j)
              (partFindJ has a (j - partFindI has a (j - i) i j)
                (partFindI has a (j - i) i j) j))
            (partFindI has a (j - i) i j + 1)
            (partFindJ has a (j - partFindI has a (j - i) i j)
              (partFindI has a (j - i) i j) j - 1)
        else a) := by
      rw [partLoop]
    rw [hred]
    set i1 := partFindI has a (j - i) i j with hI1
    set j1 := partFindJ has a (j - i1) i1 j with hJ1
    have hii1 : i ≤ i1 := by rw [hI1]; exact partFindI_ge has a (j - i) i j
    have hj1j : j1 ≤ j := by rw [hJ1]; exact partFindJ_le has a (j - i1) i1 j
    by_cases hij1 : i1 < j1
    · rw [if_pos hij1]
      have hi1len : i1 < a.length := by omega
      have hj1len : j1 < a.length := by omega
      have hai1 : has (a.getD i1 []) = false := by
        rw [hI1]
        exact partFindI_stop has a (j - i) i j (by omega) (by rw [← hI1]; omega)
      have haj1 : has (a.getD j1 []) = true := by
        rw [hJ1]
        exact partFindJ_stop has a (j - i1) i1 j (by omega) (by rw [← hJ1]; omega)
      have hinv1 : ∀ k, sh ≤ k → k < i1 + 1 →
          has ((swapAt a i1 j1).getD k []) = true := by
        intro k hks hk
        by_cases hk1 : k = i1
        · rw [hk1, swapAt_getD_left a i1 j1 (by omega) hi1len]
          exact haj1
        · rw [swapAt_getD_ne a i1 j1 k hk1 (by omega)]
          by_cases hki : k < i
          · exact inv1 k hks hki
          · rw [hI1] at hk
            exact partFindI_scanned has a (j - i) i j k (by omega) (by omega)
      have hinv2 : ∀ k, j1 - 1 < k → k ≤ hb →
          has ((swapAt a i1 j1).getD k []) = false := by
        intro k hk hkhb
        by_cases hk1 : k = j1
        · rw [hk1, swapAt_getD_right a i1 j1 hj1len]
          exact hai1
        · have hkj1 : j1 < k := by omega
          rw [swapAt_getD_ne a i1 j1 k (by omega) hk1]
          by_cases hkj : k ≤ j
          · rw [hJ1] at hkj1
            exact partFindJ_scanned has a (j - i1) i1 j k hkj1 hkj
          · exact inv2 k (by omega) hkhb
      obtain ⟨hperm, hpart⟩ := ih (swapAt a i1 j1) (i1 + 1) (j1 - 1) sh hb
        (by omega) (by omega) (by rw [swapAt_length]; exact hlen) (by omega)
        hinv1 hinv2
      exact ⟨hperm.trans (swapAt_perm a i1 j1 hi1len hj1len), hpart⟩
    · rw [if_neg hij1]
      refine ⟨List.Perm.refl a, ?_⟩
      intro p q hp hpq hq hhq
      have hscan : ∀ k, sh ≤ k → k < i1 → has (a.getD k []) = true := by
        intro k hks hk
        by_cases hki : k < i
        · exact inv1 k hks hki
        · rw [hI1] at hk
          exact partFindI_scanned has a (j - i) i j k (by omega) hk
      have hnscan : ∀ k, j1 < k → k ≤ hb → has (a.getD k []) = false := by
        intro k hk hkhb
        by_cases hkj : k ≤ j
        · rw [hJ1] at hk
          exact partFindJ_scanned has a (j - i1) i1 j k hk hkj
        · exact inv2 k (by omega) hkhb
      have hqj1 : q ≤ j1 := by
        by_contra hq'
        rw [hnscan q (by omega) hq] at hhq
        exact absurd hhq Bool.false_ne_true
      by_cases hpi : p < i1
      · exact hscan p hp hpi
      · rw [show p = q by omega]
        exact hhq

/-! # Partition corollaries -/

theorem partLoop_getD_lt (has : ByteStr → Bool) :
    ∀ (fuel : Nat) (a : List ByteStr) (i j k : Nat), k < i →
      (partLoop has fuel a i j).getD k [] = a.getD k [] := by
  intro fuel
  induction fuel with
  | zero => intro a i j k _; rfl
  | succ n ih =>
    intro a i j k hk
    have hred : partLoop has (n + 1) a i j =
        (if partFindI has a (j - i) i j <
            partFindJ has a (j - partFindI has a (j - i) i j)
              (partFindI has a (j - i) i j) j then
          partLoop has n
            (swapAt a (partFindI has a (j - i) i j)
              (partFindJ has a (j - partFindI has a (j - i) i j)
                (partFindI has a (j - i) i j) j))
            (partFindI has a (j - i) i j + 1)
            (partFindJ has a (j - partFindI has a (j - i) i j)
              (partFindI has a (j - i) i j) j - 1)
        else a) := by
      rw [partLoop]
    rw [hred]
    set i1 := partFindI has a (j - i) i j with hI1
    set j1 := partFindJ has a (j - i1) i1 j with hJ1
    have hii1 : i ≤ i1 := by rw [hI1]; exact partFindI_ge has a (j - i) i j
    by_cases hij1 : i1 < j1
    · rw [if_pos hij1, ih (swapAt a i1 j1) (i1 + 1) (j1 - 1) k (by omega),
        swapAt_getD_ne a i1 j1 k (by omega) (by omega)]
    · rw [if_neg hij1]

theorem partitionReplay_perm (has : ByteStr → Bool) (sh : Nat)
    (a : List ByteStr) (ha : 0 < a.length) :
    (partitionReplay has sh a).Perm a := by
  unfold partitionReplay
  exact (partLoop_spec has a.length a sh (a.length - 1) sh (a.length - 1)
    (Nat.le_refl sh) (Nat.le_refl _) (by omega) (by omega)
    (by intro k h1 h2; omega) (by intro k h1 h2; omega)).1

theorem partitionReplay_sorted (has : ByteStr → Bool) (sh : Nat)
    (a : List ByteStr) (ha : 0 < a.length) :
    ∀ p q, sh ≤ p → p ≤ q → q ≤ a.length - 1 →
      has ((partitionReplay has sh a).getD q []) = true →
      has ((partitionReplay has sh a).getD p []) = true := by
  unfold partitionReplay
  exact (partLoop_spec has a.length a sh (a.length - 1) sh (a.length - 1)
    (Nat.le_refl sh) (Nat.le_refl _) (by omega) (by omega)
    (by intro k h1 h2; omega) (by intro k h1 h2; omega)).2

theorem partitionReplay_length (has : ByteStr → Bool) (sh : Nat)
    (a : List ByteStr) (ha : 0 < a.length) :
    (partitionReplay has sh a).length = a.length :=
  (partitionReplay_perm has sh a ha).length_eq

theorem partitionReplay_getD_lt (has : ByteStr → Bool) (sh : Nat)
    (a : List ByteStr) (k : Nat) (hk : k < sh) :
    (partitionReplay has sh a).getD k [] = a.getD k [] := by
  unfold partitionReplay
  exact partLoop_getD_lt has a.length a sh (a.length - 1) k hk

/-! # Reset: affinity slot and first `Next` -/

theorem resetAffinityHead_eq (store : MStore) :
    resetAffinityHead store true true =
      alGet store.keyValues datastoreAffinityServerEntryIDKey := by
  unfold resetAffinityHead
  rw [if_pos ⟨rfl, rfl⟩]

theorem resetPrePartitionIDs_affinity (store : MStore) (rs : Nat → Nat)
    (aid : ByteStr)
    (haid : alGet store.keyValues datastoreAffinityServerEntryIDKey = some aid) :
    resetPrePartitionIDs store true true rs =
      (fisherYates rs 1 (aid :: resetCollectedIDs store (some aid)), 1) := by
  unfold resetPrePartitionIDs
  rw [resetAffinityHead_eq, haid]
  rfl

theorem resetServerEntryIDs_partition_eq (config : MConfig) (store : MStore)
    (app : Bool) (rs : Nat → Nat) (hreplay : config.replayCandidateCount > 0) :
    resetServerEntryIDs config store app true rs =
      (partitionReplay (hasDialParametersRecord store config.networkID)
        (resetPrePartitionIDs store app true rs).2
        (resetPrePartitionIDs store app true rs).1,
       (resetPrePartitionIDs store app true rs).2) := by
  unfold resetServerEntryIDs
  rw [if_pos ⟨rfl, hreplay⟩]

theorem resetServerEntryIDs_no_partition_eq (config : MConfig) (store : MStore)
    (app : Bool) (rs : Nat → Nat) (hreplay : ¬ config.replayCandidateCount > 0) :
    resetServerEntryIDs config store app true rs =
      resetPrePartitionIDs store app true rs := by
  unfold resetServerEntryIDs
  rw [if_neg (fun h => hreplay h.2)]

theorem resetServerEntryIDs_affinity (config : MConfig) (store : MStore)
    (rs : Nat → Nat) (aid : ByteStr)
    (haid : alGet store.keyValues datastoreAffinityServerEntryIDKey = some aid) :
    ∃ ids : List ByteStr,
      resetServerEntryIDs config store true true rs = (ids, 1) ∧
      ids.getD 0 [] = aid ∧
      ids.length = 1 + (resetCollectedIDs store (some aid)).length := by
  have hbase : (aid :: resetCollectedIDs store (some aid)).length =
      1 + (resetCollectedIDs store (some aid)).length := by
    rw [List.length_cons]
    omega
  have hfy : (fisherYates rs 1 (aid :: resetCollectedIDs store (some aid))).length =
      1 + (resetCollectedIDs store (some aid)).length := by
    rw [fisherYates_length, hbase]
  by_cases hreplay : config.replayCandidateCount > 0
  · refine ⟨partitionReplay (hasDialParametersRecord store config.networkID) 1
      (fisherYates rs 1 (aid :: resetCollectedIDs store (some aid))), ?_, ?_, ?_⟩
    · rw [resetServerEntryIDs_partition_eq config store true rs hreplay,
        resetPrePartitionIDs_affinity store rs aid haid]
    · rw [partitionReplay_getD_lt _ _ _ 0 (by omega),
        fisherYates_getD_lt rs 1 _ 0 (by omega)]
      rfl
    · rw [partitionReplay_length _ _ _ (by rw [hfy]; omega), hfy]
  · refine ⟨fisherYates rs 1 (aid :: resetCollectedIDs store (some aid)), ?_, ?_, ?_⟩
    · rw [resetServerEntryIDs_no_partition_eq config store true rs hreplay,
        resetPrePartitionIDs_affinity store rs aid haid]
    · rw [fisherYates_getD_lt rs 1 _ 0 (by omega)]
      rfl
    · exact hfy

theorem iterNextGo_head (config : MConfig) (store : MStore) (ids : List ByteStr)
    (aid : ByteStr) (e : MServerEntry) (hlen : 0 < ids.length)
    (hid0 : ids.getD 0 [] = aid)
    (hentry : alGet store.serverEntries aid = some (.valid e))
    (hregion : config.egressRegion = [] ∨ e.region = config.egressRegion) :
    iterNextGo config store ids (ids.length - 0) 0 = some (e, 1) := by
  obtain ⟨m, hm⟩ : ∃ m, ids.length - 0 = m + 1 := ⟨ids.length - 1, by omega⟩
  rw [hm, iterNextGo, if_neg (by omega : ¬ (0 : Nat) ≥ ids.length)]
  show (match alGet store.serverEntries (ids.getD 0 []) with
    | none => iterNextGo config store ids m (0 + 1)
    | some .malformed => iterNextGo config store ids m (0 + 1)
    | some (.valid serverEntry) =>
        if config.egressRegion = [] ∨ serverEntry.region = config.egressRegion then
          some (serverEntry, 0 + 1)
        else iterNextGo config store ids m (0 + 1)) = some (e, 1)
  rw [hid0, hentry]
  show (if config.egressRegion = [] ∨ e.region = config.egressRegion then
      some (e, 0 + 1) else iterNextGo config store ids m (0 + 1)) = some (e, 1)
  rw [if_pos hregion]

theorem iterNext_first (config : MConfig) (store : MStore) (app : Bool)
    (ids : List ByteStr) (aid : ByteStr) (e : MServerEntry)
    (hlen : 0 < ids.length) (hid0 : ids.getD 0 [] = aid)
    (hentry : alGet store.serverEntries aid = some (.valid e))
    (hregion : config.egressRegion = [] ∨ e.region = config.egressRegion) :
    (iterNext config store ⟨app, ids, 0, false, false, none⟩).1 = some e := by
  unfold iterNext
  rw [if_neg (Bool.false_ne_true)]
  rw [iterNextGo_head config store ids aid e hlen hid0 hentry hregion]

/-! # C6 -/

/-- C6: for every store-backed iterator, the returned affinity flag is
true iff the persisted filter fingerprint byte-equals the one derived
from the current configuration; and when it is honored — a previous
promote recorded an affinity identifier under an unchanged fingerprint —
the affinity entry occupies slot 0 of the ranked identifiers and the
first call to `Next` returns it. -/
theorem NewServerEntryIterator_affinity (config : MConfig) (store : MStore)
    (rs : Nat → Nat) (aid : ByteStr) (e : MServerEntry)
    (ht : config.targetServerEntry = none)
    (hfilter : hasServerEntryFilterChanged config store = false)
    (haid : alGet store.keyValues datastoreAffinityServerEntryIDKey = some aid)
    (hentry : alGet store.serverEntries aid = some (.valid e))
    (hregion : config.egressRegion = [] ∨ e.region = config.egressRegion) :
    (∀ store2 : MStore, (NewServerEntryIterator config store2 rs).map Prod.fst =
        .ok (!hasServerEntryFilterChanged config store2)) ∧
    ∃ it : MServerEntryIterator,
      NewServerEntryIterator config store rs = .ok (true, it) ∧
      it.serverEntryIDs.getD 0 [] = aid ∧
      (iterNext config store it).1 = some e := by
  constructor
  · intro store2
    unfold NewServerEntryIterator
    rw [ht]
    rfl
  · obtain ⟨ids, hr, hid0, hlen⟩ :=
      resetServerEntryIDs_affinity config store rs aid haid
    refine ⟨⟨true, ids, 0, false, false, none⟩, ?_, ?_, ?_⟩
    · unfold NewServerEntryIterator
      rw [ht]
      show Except.ok (!hasServerEntryFilterChanged config store,
        (⟨!hasServerEntryFilterChanged config store,
          (resetServerEntryIDs config store
            (!hasServerEntryFilterChanged config store) true rs).1,
          0, false, false, none⟩ : MServerEntryIterator)) = _
      rw [hfilter]
      show Except.ok (true, (⟨true,
        (resetServerEntryIDs config store true true rs).1,
        0, false, false, none⟩ : MServerEntryIterator)) = _
      rw [hr]
    · exact hid0
    · exact iterNext_first config store true ids aid e (by omega) hid0
        hentry hregion

/-- C6 witness: a store holding the promoted entry `[65]` under an
unchanged filter fingerprint yields an iterator whose first `Next`
returns that entry. -/
theorem NewServerEntryIterator_affinity_witness :
    ((⟨[], [], 1, none⟩ : MConfig).targetServerEntry = none) ∧
    hasServerEntryFilterChanged ⟨[], [], 1, none⟩
      ⟨[([65], .valid ⟨[65], 0, []⟩), ([66], .valid ⟨[66], 0, []⟩)],
       [(datastoreAffinityServerEntryIDKey, [65]),
        (datastoreLastServerEntryFilterKey, [])], []⟩ = false ∧
    ((∀ store2 : MStore,
        (NewServerEntryIterator ⟨[], [], 1, none⟩ store2 (fun _ => 0)).map
          Prod.fst =
        .ok (!hasServerEntryFilterChanged ⟨[], [], 1, none⟩ store2)) ∧
      ∃ it : MServerEntryIterator,
        NewServerEntryIterator ⟨[], [], 1, none⟩
          ⟨[([65], .valid ⟨[65], 0, []⟩), ([66], .valid ⟨[66], 0, []⟩)],
           [(datastoreAffinityServerEntryIDKey, [65]),
            (datastoreLastServerEntryFilterKey, [])], []⟩ (fun _ => 0) =
          .ok (true, it) ∧
        it.serverEntryIDs.getD 0 [] = [65] ∧
        (iterNext ⟨[], [], 1, none⟩
          ⟨[([65], .valid ⟨[65], 0, []⟩), ([66], .valid ⟨[66], 0, []⟩)],
           [(datastoreAffinityServerEntryIDKey, [65]),
            (datastoreLastServerEntryFilterKey, [])], []⟩ it).1 =
          some ⟨[65], 0, []⟩) :=
  ⟨rfl, by decide,
    NewServerEntryIterator_affinity ⟨[], [], 1, none⟩
      ⟨[([65], .valid ⟨[65], 0, []⟩), ([66], .valid ⟨[66], 0, []⟩)],
       [(datastoreAffinityServerEntryIDKey, [65]),
        (datastoreLastServerEntryFilterKey, [])], []⟩ (fun _ => 0) [65]
      ⟨[65], 0, []⟩ rfl (by decide) (by decide) (by decide) (Or.inl rfl)⟩

/-! # C7 -/

/-- C7: in an initial-round reset with a positive replay candidate
count, the two-pointer partition leaves the identifier list a
permutation of the pre-partition list, keeps the shuffle head, and in
the shuffled region every identifier with a dial-parameters record for
the current network precedes every identifier without one. -/
theorem resetServerEntryIDs_replay_partition (config : MConfig)
    (store : MStore) (app : Bool) (rs : Nat → Nat)
    (hreplay : config.replayCandidateCount > 0)
    (hne : 0 < (resetPrePartitionIDs store app true rs).1.length) :
    (resetServerEntryIDs config store app true rs).2 =
      (resetPrePartitionIDs store app true rs).2 ∧
    (resetServerEntryIDs config store app true rs).1.Perm
      (resetPrePartitionIDs store app true rs).1 ∧
    ∀ p q, (resetPrePartitionIDs store app true rs).2 ≤ p → p ≤ q →
      q < (resetServerEntryIDs config store app true rs).1.length →
      hasDialParametersRecord store config.networkID
        ((resetServerEntryIDs config store app true rs).1.getD q []) = true →
      hasDialParametersRecord store config.networkID
        ((resetServerEntryIDs config store app true rs).1.getD p []) = true := by
  have heq := resetServerEntryIDs_partition_eq config store app rs hreplay
  refine ⟨by rw [heq], ?_, ?_⟩
  · rw [heq]
    exact partitionReplay_perm _ _ _ hne
  · rw [heq]
    intro p q hp hpq hq hq'
    have hq2 : q < (partitionReplay (hasDialParametersRecord store config.networkID)
        (resetPrePartitionIDs store app true rs).2
        (resetPrePartitionIDs store app true rs).1).length := hq
    have hl := partitionReplay_length (hasDialParametersRecord store config.networkID)
      (resetPrePartitionIDs store app true rs).2
      (resetPrePartitionIDs store app true rs).1 hne
    exact partitionReplay_sorted _ _ _ hne p q hp hpq (by omega) hq'

/-- C7 witness: store with entries `[65]` and `[66]`, a dial-parameters
record only for `[65]` on the current network, replay candidate count 1:
`[65]` precedes `[66]` in the partitioned list. -/
theorem resetServerEntryIDs_replay_partition_witness :
    ((⟨[], [77], 1, none⟩ : MConfig).replayCandidateCount > 0) ∧
    (0 < (resetPrePartitionIDs
        ⟨[([65], .valid ⟨[65], 0, []⟩), ([66], .valid ⟨[66], 0, []⟩)], [],
         [([65, 77], [1])]⟩ false true (fun _ => 0)).1.length) ∧
    ((resetServerEntryIDs ⟨[], [77], 1, none⟩
        ⟨[([65], .valid ⟨[65], 0, []⟩), ([66], .valid ⟨[66], 0, []⟩)], [],
         [([65, 77], [1])]⟩ false true (fun _ => 0)).2 =
      (resetPrePartitionIDs
        ⟨[([65], .valid ⟨[65], 0, []⟩), ([66], .valid ⟨[66], 0, []⟩)], [],
         [([65, 77], [1])]⟩ false true (fun _ => 0)).2 ∧
    (resetServerEntryIDs ⟨[], [77], 1, none⟩
        ⟨[([65], .valid ⟨[65], 0, []⟩), ([66], .valid ⟨[66], 0, []⟩)], [],
         [([65, 77], [1])]⟩ false true (fun _ => 0)).1.Perm
      (resetPrePartitionIDs
        ⟨[([65], .valid ⟨[65], 0, []⟩), ([66], .valid ⟨[66], 0, []⟩)], [],
         [([65, 77], [1])]⟩ false true (fun _ => 0)).1 ∧
    ∀ p q, (resetPrePartitionIDs
        ⟨[([65], .valid ⟨[65], 0, []⟩), ([66], .valid ⟨[66], 0, []⟩)], [],
         [([65, 77], [1])]⟩ false true (fun _ => 0)).2 ≤ p → p ≤ q →
      q < (resetServerEntryIDs ⟨[], [77], 1, none⟩
        ⟨[([65], .valid ⟨[65], 0, []⟩), ([66], .valid ⟨[66], 0, []⟩)], [],
         [([65, 77], [1])]⟩ false true (fun _ => 0)).1.length →
      hasDialParametersRecord
        ⟨[([65], .valid ⟨[65], 0, []⟩), ([66], .valid ⟨[66], 0, []⟩)], [],
         [([65, 77], [1])]⟩ [77]
        ((resetServerEntryIDs ⟨[], [77], 1, none⟩
          ⟨[([65], .valid ⟨[65], 0, []⟩), ([66], .valid ⟨[66], 0, []⟩)], [],
           [([65, 77], [1])]⟩ false true (fun _ => 0)).1.getD q []) = true →
      hasDialParametersRecord
        ⟨[([65], .valid ⟨[65], 0, []⟩), ([66], .valid ⟨[66], 0, []⟩)], [],
         [([65, 77], [1])]⟩ [77]
        ((resetServerEntryIDs ⟨[], [77], 1, none⟩
          ⟨[([65], .valid ⟨[65], 0, []⟩), ([66], .valid ⟨[66], 0, []⟩)], [],
           [([65, 77], [1])]⟩ false true (fun _ => 0)).1.getD p []) = true) :=
  ⟨by decide, by decide,
    resetServerEntryIDs_replay_partition ⟨[], [77], 1, none⟩
      ⟨[([65], .valid ⟨[65], 0, []⟩), ([66], .valid ⟨[66], 0, []⟩)], [],
       [([65, 77], [1])]⟩ false (fun _ => 0) (by decide) (by decide)⟩

/-! # Helper lemmas -/

theorem alGet_alPut_same (l : List (ByteStr × α)) (k : ByteStr) (v : α) :
    alGet (alPut l k v) k = some v := by
  induction l with
  | nil => simp [alPut, alGet]
  | cons hd tl ih =>
      obtain ⟨k', v'⟩ := hd
      by_cases h : k' = k
      · simp [alPut, alGet, h]
      · simp [alPut, alGet, h, ih]

theorem alGet_alPut_other (l : List (ByteStr × α)) (k k' : ByteStr) (v : α)
    (h : k ≠ k') : alGet (alPut l k v) k' = alGet l k' := by
  induction l with
  | nil => simp [alPut, alGet, h]
  | cons hd tl ih =>
      obtain ⟨k'', v''⟩ := hd
      by_cases h2 : k'' = k
      · subst h2
        simp [alPut, alGet, h]
      · simp [alPut, alGet, h2, ih]

/-! # C9 -/

/-- C9: promoting an identifier with no stored server entry is a silent
no-op — success with the store unchanged; a promote of an existing entry
writes exactly the affinity identifier and the filter fingerprint keys. -/
theorem promoteServerEntry_frame (config : MConfig) (ipAddress : ByteStr)
    (store : MStore) :
    (alGet store.serverEntries ipAddress = none →
      PromoteServerEntry config ipAddress store = .ok store) ∧
    (∀ d, alGet store.serverEntries ipAddress = some d →
      ∃ store', PromoteServerEntry config ipAddress store = .ok store' ∧
        alGet store'.keyValues datastoreAffinityServerEntryIDKey = some ipAddress ∧
        alGet store'.keyValues datastoreLastServerEntryFilterKey =
          some (makeServerEntryFilterValue config) ∧
        store'.serverEntries = store.serverEntries ∧
        store'.dialParameters = store.dialParameters) := by
  constructor
  · intro h
    simp [PromoteServerEntry, h]
  · intro d h
    refine ⟨⟨store.serverEntries,
      alPut (alPut store.keyValues datastoreAffinityServerEntryIDKey ipAddress)
        datastoreLastServerEntryFilterKey (makeServerEntryFilterValue config),
      store.dialParameters⟩, ?_, ?_, ?_, rfl, rfl⟩
    · simp [PromoteServerEntry, h]
    · rw [alGet_alPut_other _ _ _ _ (by decide), alGet_alPut_same]
    · rw [alGet_alPut_same]

/-- C9 witness. -/
theorem promoteServerEntry_frame_witness :
    PromoteServerEntry ⟨[], [], 0, none⟩ [1] ⟨[], [], []⟩ = .ok ⟨[], [], []⟩ :=
  (promoteServerEntry_frame ⟨[], [], 0, none⟩ [1] ⟨[], [], []⟩).1 (by decide)

/-! # C5 -/

/-- C5: under `replaceIfExists = false` the store replaces iff no valid
record exists (missing or malformed stored data is replaceable) or the
incoming configuration version is strictly greater; consequently the
stored configuration version afterwards is the maximum of the previous
and incoming versions. -/
theorem storeServerEntry_policy (e old : MServerEntry) (store : MStore)
    (hv : validateServerEntryFields e = true)
    (hold : alGet store.serverEntries e.ipAddress = some (.valid old))
    (hnn : 0 ≤ old.configurationVersion) :
    storeServerEntryDecision none e.configurationVersion false = true ∧
    storeServerEntryDecision (some .malformed) e.configurationVersion false = true ∧
    (storeServerEntryDecision (some (.valid old)) e.configurationVersion false = true ↔
      old.configurationVersion < e.configurationVersion) ∧
    ∃ store', StoreServerEntry e false store = .ok store' ∧
      alGet store'.serverEntries e.ipAddress =
        some (.valid (if old.configurationVersion < e.configurationVersion then e else old)) ∧
      ∀ cur, alGet store'.serverEntries e.ipAddress = some (.valid cur) →
        cur.configurationVersion =
          max old.configurationVersion e.configurationVersion := by
  have hgt : old.configurationVersion > -1 := lt_of_lt_of_le (by norm_num) hnn
  refine ⟨by simp [storeServerEntryDecision], by simp [storeServerEntryDecision], ?_, ?_⟩
  · simp [storeServerEntryDecision, hgt]
  · by_cases hlt : old.configurationVersion < e.configurationVersion
    · refine ⟨⟨alPut store.serverEntries e.ipAddress (.valid e),
        store.keyValues, store.dialParameters⟩, ?_, ?_, ?_⟩
      · simp [StoreServerEntry, hv, hold, storeServerEntryDecision, hgt, hlt]
      · simp [alGet_alPut_same, hlt]
      · intro cur hcur
        rw [alGet_alPut_same] at hcur
        simp only [Option.some.injEq, EntryData.valid.injEq] at hcur
        subst hcur
        exact (max_eq_right (le_of_lt hlt)).symm
    · refine ⟨store, ?_, ?_, ?_⟩
      · simp [StoreServerEntry, hv, hold, storeServerEntryDecision, hgt, hlt]
      · simp [hold, hlt]
      · intro cur hcur
        rw [hold] at hcur
        simp only [Option.some.injEq, EntryData.valid.injEq] at hcur
        subst hcur
        exact (max_eq_left (le_of_not_lt hlt)).symm

/-- C5 witness. -/
theorem storeServerEntry_policy_witness :
    validateServerEntryFields ⟨[9], 3, []⟩ = true ∧
    alGet (MStore.mk [([9], .valid ⟨[9], 2, []⟩)] [] []).serverEntries [9] =
      some (.valid ⟨[9], 2, []⟩) ∧
    (storeServerEntryDecision (some (.valid ⟨[9], 2, []⟩)) 3 false = true ↔ (2 : Int) < 3) := by
  have h := storeServerEntry_policy ⟨[9], 3, []⟩ ⟨[9], 2, []⟩
    (MStore.mk [([9], .valid ⟨[9], 2, []⟩)] [] []) (by decide) (by decide) (by decide)
  exact ⟨by decide, by decide, h.2.2.1⟩

/-! # Length facts for the key derivation -/

theorem sha1_length (msg : List Nat) : (sha1 msg).length = 20 := by
  unfold sha1
  rcases (chunks64 (sha1Pad msg)).foldl sha1Block
    (1732584193, 4023233417, 2562383102, 271733878, 3285377520) with
    ⟨h0, h1, h2, h3, h4⟩
  simp [word2bytes]

theorem iterSha1_sha1_length (n : Nat) (msg : List Nat) :
    (iterSha1 n (sha1 msg)).length = 20 := by
  induction n generalizing msg with
  | zero => exact sha1_length msg
  | succ n ih => exact ih (sha1 msg)

theorem deriveKey_eq_spec (seed keyword iv : List Nat) :
    deriveKey seed keyword iv = .ok (specDerivedKey seed keyword iv) := by
  unfold deriveKey specDerivedKey OBFUSCATE_HASH_ITERATIONS OBFUSCATE_KEY_LENGTH
  rw [if_neg]
  rw [iterSha1_sha1_length]
  omega

theorem specDerivedKey_length (seed keyword iv : List Nat) :
    (specDerivedKey seed keyword iv).length = 16 := by
  unfold specDerivedKey
  rw [List.length_take, iterSha1_sha1_length]
  omega

theorem exceptBindOk (v : α) (f : α → Except ε β) : (Except.ok v >>= f) = f v := rfl

theorem rc4KeyLenOk (key : List Nat) (h : key.length = 16) :
    ¬(key.length < 1 ∨ key.length > 256) := by omega

theorem initObfuscatorCiphers_ok (seed : List Nat) (config : MObfuscatorConfig) :
    initObfuscatorCiphers seed config = .ok
      (⟨rc4Ksa (specDerivedKey seed config.keyword OBFUSCATE_CLIENT_TO_SERVER_IV), 0, 0⟩,
       ⟨rc4Ksa (specDerivedKey seed config.keyword OBFUSCATE_SERVER_TO_CLIENT_IV), 0, 0⟩) := by
  unfold initObfuscatorCiphers
  rw [deriveKey_eq_spec, deriveKey_eq_spec]
  rw [exceptBindOk, exceptBindOk]
  unfold rc4NewCipher
  rw [if_neg (rc4KeyLenOk _ (specDerivedKey_length _ _ _))]
  rw [exceptBindOk]
  rw [if_neg (rc4KeyLenOk _ (specDerivedKey_length _ _ _))]
  rfl

/-! # C2 -/

/-- C2 counterexample: a configured minimum padding of `seedLength − 1`
(31) does not make `NewClientObfuscator` return an error — construction
succeeds, and the invalid minimum is ignored in favour of the default
`prng.SEED_LENGTH`. -/
theorem newClientObfuscator_min31_counterexample :
    clientMinPadding ⟨[107], some (List.replicate 32 0), some 31, some 40⟩ = 32 ∧
    (NewClientObfuscator ⟨[107], some (List.replicate 32 0), some 31, some 40⟩
      (fun _ => 0)).isOk = true := by
  constructor
  · decide
  · show (newClientObfuscatorWithSeed ⟨[107], some (List.replicate 32 0), some 31, some 40⟩
      (List.replicate 32 0) (fun _ => 0)).isOk = true
    unfold newClientObfuscatorWithSeed
    rw [initObfuscatorCiphers_ok, exceptBindOk]
    rfl

/-- C2 amended: the boundary values `min = seedLength` and `max = 8192`
are accepted as configured, but `min = seedLength − 1` and `max = 8193`
do not cause an error: the out-of-range value is ignored and the default
bound (`seedLength`, respectively 8192) used; `NewClientObfuscator`
returns an error exactly when the padding PRNG seed is missing. -/
theorem newClientObfuscator_padding_config (cfg : MObfuscatorConfig)
    (entropy : Nat → Nat) :
    (cfg.minPadding = some 32 → clientMinPadding cfg = 32) ∧
    (cfg.minPadding = some 31 → clientMinPadding cfg = 32) ∧
    (cfg.maxPadding = some 8192 → clientMaxPadding cfg = 8192) ∧
    (cfg.maxPadding = some 8193 → clientMaxPadding cfg = 8192) ∧
    ((∃ ob, NewClientObfuscator cfg entropy = .ok ob) ↔ cfg.paddingPRNGSeed ≠ none) := by
  have hminle : clientMinPadding cfg ≤ 8192 := by
    unfold clientMinPadding
    rcases cfg.minPadding with _ | m
    · norm_num [PRNG_SEED_LENGTH]
    · dsimp only
      split <;> simp_all [PRNG_SEED_LENGTH, OBFUSCATE_MAX_PADDING]
  refine ⟨?_, ?_, ?_, ?_, ?_⟩
  · intro h; simp [clientMinPadding, h, PRNG_SEED_LENGTH, OBFUSCATE_MAX_PADDING]
  · intro h; simp [clientMinPadding, h, PRNG_SEED_LENGTH, OBFUSCATE_MAX_PADDING]
  · intro h
    simp only [clientMaxPadding, h]
    rw [if_pos]
    refine ⟨by norm_num [PRNG_SEED_LENGTH], by norm_num [OBFUSCATE_MAX_PADDING], ?_⟩
    exact_mod_cast hminle
  · intro h; simp [clientMaxPadding, h, PRNG_SEED_LENGTH, OBFUSCATE_MAX_PADDING]
  · obtain ⟨kw, seedOpt, minP, maxP⟩ := cfg
    constructor
    · rintro ⟨ob, hob⟩ hnone
      simp only at hnone
      subst hnone
      unfold NewClientObfuscator at hob
      exact absurd hob (by simp)
    · intro hne
      rcases hseed : seedOpt with _ | s
      · exact absurd (by simp [hseed]) hne
      · subst hseed
        show ∃ ob, newClientObfuscatorWithSeed ⟨kw, some s, minP, maxP⟩ s entropy = .ok ob
        unfold newClientObfuscatorWithSeed
        rw [initObfuscatorCiphers_ok, exceptBindOk]
        exact ⟨_, rfl⟩

/-- C2 witness for the amended claim: the boundary configuration
`min = 32`, `max = 8192` with a padding seed present. -/
theorem newClientObfuscator_padding_config_witness :
    clientMinPadding ⟨[107], some (List.replicate 32 0), some 32, some 8192⟩ = 32 ∧
    clientMaxPadding ⟨[107], some (List.replicate 32 0), some 32, some 8192⟩ = 8192 ∧
    (∃ ob, NewClientObfuscator ⟨[107], some (List.replicate 32 0), some 32, some 8192⟩
      (fun _ => 0) = .ok ob) := by
  have h := newClientObfuscator_padding_config
    ⟨[107], some (List.replicate 32 0), some 32, some 8192⟩ (fun _ => 0)
  exact ⟨h.1 rfl, h.2.2.1 rfl, h.2.2.2.2.mpr (by decide)⟩

/-! # C4 and C10 -/

theorem readFull_ok (input : List Nat) (pos n : Nat) (h : pos + n ≤ input.length) :
    readFull input pos n = .ok ((input.drop pos).take n, pos + n) := by
  unfold readFull
  rw [if_pos h]

theorem readSeedCiphersStage_eq (input : List Nat) (config : MObfuscatorConfig)
    (entropy : Nat → Nat) (sb : List Nat) (pos : Nat) :
    readSeedCiphersStage input config entropy (sb, pos) =
      readSeedMessageWithCiphers input
        ⟨rc4Ksa (specDerivedKey sb config.keyword OBFUSCATE_CLIENT_TO_SERVER_IV), 0, 0⟩
        ⟨rc4Ksa (specDerivedKey sb config.keyword OBFUSCATE_SERVER_TO_CLIENT_IV), 0, 0⟩
        entropy := by
  unfold readSeedCiphersStage
  rw [initObfuscatorCiphers_ok sb config]
  rfl

/-- The server obfuscator construction factored at the cipher stage: when
the input holds the 16-byte plaintext seed, `readSeedMessage` equals
`readSeedMessageWithCiphers` applied to the two ciphers derived from that
seed and the configured keyword. -/
theorem readSeedMessage_eq_withCiphers (input : List Nat)
    (config : MObfuscatorConfig) (entropy : Nat → Nat)
    (h : OBFUSCATE_SEED_LENGTH ≤ input.length) :
    readSeedMessage input config entropy =
      readSeedMessageWithCiphers input
        ⟨rc4Ksa (specDerivedKey (input.take OBFUSCATE_SEED_LENGTH) config.keyword
          OBFUSCATE_CLIENT_TO_SERVER_IV), 0, 0⟩
        ⟨rc4Ksa (specDerivedKey (input.take OBFUSCATE_SEED_LENGTH) config.keyword
          OBFUSCATE_SERVER_TO_CLIENT_IV), 0, 0⟩
        entropy := by
  have h1 : readFull input 0 OBFUSCATE_SEED_LENGTH =
      .ok (input.take OBFUSCATE_SEED_LENGTH, OBFUSCATE_SEED_LENGTH) := by
    rw [readFull_ok input 0 OBFUSCATE_SEED_LENGTH (by omega)]
    rw [List.drop_zero]
    norm_num
  unfold readSeedMessage
  rw [h1]
  show readSeedCiphersStage input config entropy
    (input.take OBFUSCATE_SEED_LENGTH, OBFUSCATE_SEED_LENGTH) = _
  exact readSeedCiphersStage_eq input config entropy
    (input.take OBFUSCATE_SEED_LENGTH) OBFUSCATE_SEED_LENGTH

/-- C4: for every client stream and every cipher pair, a seed message
whose decrypted magic value differs from the fixed constant 0x0BF5CA7E is
rejected with the magic-value error after exactly the 16-byte seed and
the 8 fixed-length bytes have been consumed — no padding byte is read,
and the magic error takes precedence over any padding-length check; and
the ciphers handed to this stage by `readSeedMessage` are the ones
derived from the message seed. -/
theorem readSeedMessage_magic_first (input : List Nat)
    (clientToServerCipher serverToClientCipher : RC4State)
    (config : MObfuscatorConfig) (entropy : Nat → Nat)
    (hlen : OBFUSCATE_SEED_LENGTH + 8 ≤ input.length)
    (hmagic : beInt32 ((decryptedSeedFields input clientToServerCipher).take 4) ≠
      (OBFUSCATE_MAGIC_VALUE : Int)) :
    readSeedMessageWithCiphers input clientToServerCipher serverToClientCipher
      entropy = (.error "invalid magic value", OBFUSCATE_SEED_LENGTH + 8) ∧
    (OBFUSCATE_SEED_LENGTH ≤ input.length →
      readSeedMessage input config entropy =
        readSeedMessageWithCiphers input
          ⟨rc4Ksa (specDerivedKey (input.take OBFUSCATE_SEED_LENGTH) config.keyword
            OBFUSCATE_CLIENT_TO_SERVER_IV), 0, 0⟩
          ⟨rc4Ksa (specDerivedKey (input.take OBFUSCATE_SEED_LENGTH) config.keyword
            OBFUSCATE_SERVER_TO_CLIENT_IV), 0, 0⟩
          entropy) := by
  constructor
  · unfold readSeedMessageWithCiphers
    rw [readFull_ok input OBFUSCATE_SEED_LENGTH 8 hlen]
    show readSeedFields input clientToServerCipher serverToClientCipher entropy
      ((input.drop OBFUSCATE_SEED_LENGTH).take 8, OBFUSCATE_SEED_LENGTH + 8) = _
    unfold readSeedFields
    split
    · rfl
    · rename_i hcond
      exact absurd hmagic hcond
  · intro h16
    exact readSeedMessage_eq_withCiphers input config entropy h16

/-- C4 witness: a stream of 24 zero bytes decrypts (under the identity
RC4 permutation) to a wrong magic value and is rejected at position 24. -/
theorem readSeedMessage_magic_first_witness :
    (OBFUSCATE_SEED_LENGTH + 8 ≤ (List.replicate 24 0 : List Nat).length) ∧
    beInt32 ((decryptedSeedFields (List.replicate 24 0)
        ⟨List.range 256, 0, 0⟩).take 4) ≠ (OBFUSCATE_MAGIC_VALUE : Int) ∧
    (readSeedMessageWithCiphers (List.replicate 24 0) ⟨List.range 256, 0, 0⟩
        ⟨List.range 256, 0, 0⟩ (fun _ => 0) =
        (.error "invalid magic value", OBFUSCATE_SEED_LENGTH + 8) ∧
      (OBFUSCATE_SEED_LENGTH ≤ (List.replicate 24 0 : List Nat).length →
        readSeedMessage (List.replicate 24 0) ⟨[107, 119], none, none, none⟩
            (fun _ => 0) =
          readSeedMessageWithCiphers (List.replicate 24 0)
            ⟨rc4Ksa (specDerivedKey ((List.replicate 24 0 : List Nat).take
              OBFUSCATE_SEED_LENGTH) (MObfuscatorConfig.mk [107, 119] none
              none none).keyword OBFUSCATE_CLIENT_TO_SERVER_IV), 0, 0⟩
            ⟨rc4Ksa (specDerivedKey ((List.replicate 24 0 : List Nat).take
              OBFUSCATE_SEED_LENGTH) (MObfuscatorConfig.mk [107, 119] none
              none none).keyword OBFUSCATE_SERVER_TO_CLIENT_IV), 0, 0⟩
            (fun _ => 0))) :=
  ⟨by decide, by decide,
    readSeedMessage_magic_first (List.replicate 24 0) ⟨List.range 256, 0, 0⟩
      ⟨List.range 256, 0, 0⟩ ⟨[107, 119], none, none, none⟩ (fun _ => 0)
      (by decide) (by decide)⟩

/-! # C10 -/

theorem rc4XorKeyStream_length (st : RC4State) (buf : List Nat) :
    (rc4XorKeyStream st buf).1.length = buf.length := by
  induction buf generalizing st with
  | nil => rfl
  | cons b rest ih => simp [rc4XorKeyStream, ih]

/-- C10: a seed message with a correct magic value and a valid padding
length smaller than `PRNG_SEED_LENGTH` is accepted — the server
obfuscator succeeds, with the padding PRNG seed drawn fresh from system
entropy rather than derived from the client padding; and the ciphers
handed to this stage by `readSeedMessage` are the ones derived from the
message seed. -/
theorem readSeedMessage_short_padding (input : List Nat)
    (clientToServerCipher serverToClientCipher : RC4State)
    (config : MObfuscatorConfig) (entropy : Nat → Nat)
    (hmagic : beInt32 ((decryptedSeedFields input clientToServerCipher).take 4) =
      (OBFUSCATE_MAGIC_VALUE : Int))
    (hge : 0 ≤ beInt32 ((decryptedSeedFields input clientToServerCipher).drop 4))
    (hle : beInt32 ((decryptedSeedFields input clientToServerCipher).drop 4) ≤
      (OBFUSCATE_MAX_PADDING : Int))
    (hshort : (beInt32 ((decryptedSeedFields input clientToServerCipher).drop 4)).toNat <
      PRNG_SEED_LENGTH)
    (hpad : OBFUSCATE_SEED_LENGTH + 8 +
        (beInt32 ((decryptedSeedFields input clientToServerCipher).drop 4)).toNat ≤
      input.length) :
    readSeedMessageWithCiphers input clientToServerCipher serverToClientCipher
        entropy =
      (.ok ((rc4XorKeyStream
          (rc4XorKeyStream clientToServerCipher
            ((input.drop OBFUSCATE_SEED_LENGTH).take 8)).2
          ((input.drop (OBFUSCATE_SEED_LENGTH + 8)).take
            (beInt32 ((decryptedSeedFields input
              clientToServerCipher).drop 4)).toNat)).2,
        serverToClientCipher, prngNewSeed entropy),
       OBFUSCATE_SEED_LENGTH + 8 +
        (beInt32 ((decryptedSeedFields input clientToServerCipher).drop 4)).toNat) ∧
    (OBFUSCATE_SEED_LENGTH ≤ input.length →
      readSeedMessage input config entropy =
        readSeedMessageWithCiphers input
          ⟨rc4Ksa (specDerivedKey (input.take OBFUSCATE_SEED_LENGTH) config.keyword
            OBFUSCATE_CLIENT_TO_SERVER_IV), 0, 0⟩
          ⟨rc4Ksa (specDerivedKey (input.take OBFUSCATE_SEED_LENGTH) config.keyword
            OBFUSCATE_SERVER_TO_CLIENT_IV), 0, 0⟩
          entropy) := by
  constructor
  · have hlen : OBFUSCATE_SEED_LENGTH + 8 ≤ input.length := by omega
    unfold readSeedMessageWithCiphers
    rw [readFull_ok input OBFUSCATE_SEED_LENGTH 8 hlen]
    show readSeedFields input clientToServerCipher serverToClientCipher entropy
      ((input.drop OBFUSCATE_SEED_LENGTH).take 8, OBFUSCATE_SEED_LENGTH + 8) = _
    unfold readSeedFields
    split
    · rename_i hc
      exact absurd hmagic hc
    split
    · rename_i hc
      exact hc.elim (fun h => absurd hge (not_le.mpr h))
        (fun h => absurd hle (not_le.mpr h))
    rw [readFull_ok input (OBFUSCATE_SEED_LENGTH + 8)
      (beInt32 ((decryptedSeedFields input clientToServerCipher).drop 4)).toNat hpad]
    show readSeedPadding
      (rc4XorKeyStream clientToServerCipher
        ((input.drop OBFUSCATE_SEED_LENGTH).take 8)).2
      serverToClientCipher entropy
      ((input.drop (OBFUSCATE_SEED_LENGTH + 8)).take
        (beInt32 ((decryptedSeedFields input clientToServerCipher).drop 4)).toNat,
       OBFUSCATE_SEED_LENGTH + 8 +
        (beInt32 ((decryptedSeedFields input clientToServerCipher).drop 4)).toNat) = _
    unfold readSeedPadding
    have hlt : ¬((rc4XorKeyStream
        (rc4XorKeyStream clientToServerCipher
          ((input.drop OBFUSCATE_SEED_LENGTH).take 8)).2
        ((input.drop (OBFUSCATE_SEED_LENGTH + 8)).take
          (beInt32 ((decryptedSeedFields input
            clientToServerCipher).drop 4)).toNat)).1.length ≥ PRNG_SEED_LENGTH) := by
      rw [rc4XorKeyStream_length, List.length_take, List.length_drop]
      omega
    rw [if_neg hlt]
  · intro h16
    exact readSeedMessage_eq_withCiphers input config entropy h16

/-- C10 witness: a concrete seed message — 16 seed bytes, the
RC4-encrypted magic and padding length 5, then 5 padding bytes — is
accepted with a fresh entropy-drawn padding PRNG seed. -/
theorem readSeedMessage_short_padding_witness :
    beInt32 ((decryptedSeedFields
        (List.replicate 16 0 ++ (rc4XorKeyStream ⟨List.range 256, 0, 0⟩
          [11, 245, 202, 126, 0, 0, 0, 5]).1 ++ List.replicate 5 7)
        ⟨List.range 256, 0, 0⟩).take 4) = (OBFUSCATE_MAGIC_VALUE : Int) ∧
    (beInt32 ((decryptedSeedFields
        (List.replicate 16 0 ++ (rc4XorKeyStream ⟨List.range 256, 0, 0⟩
          [11, 245, 202, 126, 0, 0, 0, 5]).1 ++ List.replicate 5 7)
        ⟨List.range 256, 0, 0⟩).drop 4)).toNat < PRNG_SEED_LENGTH ∧
    readSeedMessageWithCiphers
        (List.replicate 16 0 ++ (rc4XorKeyStream ⟨List.range 256, 0, 0⟩
          [11, 245, 202, 126, 0, 0, 0, 5]).1 ++ List.replicate 5 7)
        ⟨List.range 256, 0, 0⟩ ⟨List.range 256, 0, 0⟩ (fun _ => 9) =
      (.ok ((rc4XorKeyStream
          (rc4XorKeyStream ⟨List.range 256, 0, 0⟩
            (((List.replicate 16 0 ++ (rc4XorKeyStream ⟨List.range 256, 0, 0⟩
              [11, 245, 202, 126, 0, 0, 0, 5]).1 ++ List.replicate 5 7).drop
                OBFUSCATE_SEED_LENGTH).take 8)).2
          (((List.replicate 16 0 ++ (rc4XorKeyStream ⟨List.range 256, 0, 0⟩
            [11, 245, 202, 126, 0, 0, 0, 5]).1 ++ List.replicate 5 7).drop
              (OBFUSCATE_SEED_LENGTH + 8)).take
            (beInt32 ((decryptedSeedFields
              (List.replicate 16 0 ++ (rc4XorKeyStream ⟨List.range 256, 0, 0⟩
                [11, 245, 202, 126, 0, 0, 0, 5]).1 ++ List.replicate 5 7)
              ⟨List.range 256, 0, 0⟩).drop 4)).toNat)).2,
        (⟨List.range 256, 0, 0⟩ : RC4State), prngNewSeed (fun _ => 9)),
       OBFUSCATE_SEED_LENGTH + 8 +
        (beInt32 ((decryptedSeedFields
          (List.replicate 16 0 ++ (rc4XorKeyStream ⟨List.range 256, 0, 0⟩
            [11, 245, 202, 126, 0, 0, 0, 5]).1 ++ List.replicate 5 7)
          ⟨List.range 256, 0, 0⟩).drop 4)).toNat) :=
  ⟨by decide, by decide,
    (readSeedMessage_short_padding
      (List.replicate 16 0 ++ (rc4XorKeyStream ⟨List.range 256, 0, 0⟩
        [11, 245, 202, 126, 0, 0, 0, 5]).1 ++ List.replicate 5 7)
      ⟨List.range 256, 0, 0⟩ ⟨List.range 256, 0, 0⟩
      ⟨[107, 119], none, none, none⟩ (fun _ => 9)
      (by decide) (by decide) (by decide) (by decide) (by decide)).1⟩

/-! # C1 -/

/-- C1 counterexample: two assemblies of the randomized no-ALPN parrot
with the same profile and the same PRNG seed but different system
entropy produce different ClientHello messages — the 32-byte `Random`
field comes from system entropy, not from the seed. -/
theorem parrotRandomized_entropy_counterexample :
    (parrotRandomizedNoALPN (some (List.replicate 32 0)) (fun _ => 0)
        [101] none).toOption.map MHello.random ≠
      (parrotRandomizedNoALPN (some (List.replicate 32 0)) (fun _ => 1)
        [101] none).toOption.map MHello.random := by decide

/-- C1 amended: for every PRNG seed, every entropy source, server name
and session, the assembled randomized ClientHello is deterministic in
the seed on all fields except the 32-byte `Random`: shuffled and culled
cipher suites, signature algorithms, curve subset, optional-extension
inclusion and extension order are functions of the seed alone. -/
theorem parrotRandomizedNoALPN_stable (seed : PrngSeed) (e1 e2 : Nat → Nat)
    (serverName : ByteStr) (session : Option ByteStr) :
    (parrotRandomizedNoALPN (some seed) e1 serverName session).map
        helloStablePart =
      (parrotRandomizedNoALPN (some seed) e2 serverName session).map
        helloStablePart := rfl

/-! # C3 -/

/-- C3: three early error paths of `CustomTLSDial` — malformed
obfuscated-session-ticket key, CA file read failure, and randomized-seed
generation failure — return their error with the raw connection opened
but not closed, contradicting the close-on-any-error specification. -/
theorem customTLSDial_error_leaves_rawConn_open :
    CustomTLSDial
        ⟨none, true, "", true, none, some .chrome58, none, none, "abc"⟩
        ⟨true, some "h", .chrome58, true, true, true, false, true, true, true⟩ =
      ⟨.error "invalid obfuscated session key", true, false⟩ ∧
    CustomTLSDial
        ⟨none, true, "", false, none, some .chrome58, none, some "ca.pem", ""⟩
        ⟨true, some "h", .chrome58, false, true, true, false, true, true, true⟩ =
      ⟨.error "read CA file failed", true, false⟩ ∧
    CustomTLSDial
        ⟨none, true, "", true, none, some .randomized, none, none, ""⟩
        ⟨true, some "h", .randomized, true, false, true, false, true, true, true⟩ =
      ⟨.error "new seed failed", true, false⟩ := by decide
